import Mathlib

set_option maxRecDepth 100000
set_option maxHeartbeats 1000000

/-!
A shallow embedding of the TOPP-RA path-parameterization core
(`toppra/TOPP.py`, class `qpOASESPPSolver`).

Floating-point numbers are modelled as exact rationals.  The qpOASES
backend (`SQProblem.init` / `SQProblem.hotstart`) is modelled as an
abstract stateful oracle `Backend σ`: each call receives the posed
problem data `(H, g, A[i], l[i], h[i], lA[i], hA[i], nWSR)` together
with the cold/hot-start flag and returns a status, a primal solution
and an objective value, threading an abstract solver state `σ` (one
state per solver instance: `up` and `down`).  Python exceptions
(assert failures, `ValueError`, the `TypeError` numpy raises when a
`None` is stored into a float array) are modelled with `Except Err`.
-/

namespace Toppra

/-- Numerical constant `SUPERTINY = 1e-10` from the source. -/
def SUPERTINY : ℚ := 1 / 10000000000

/-- Numerical constant `TINY = 1e-8` from the source. -/
def TINY : ℚ := 1 / 100000000

/-- Numerical constant `SMALL = 1e-5` from the source. -/
def SMALL : ℚ := 1 / 100000

/-- Numerical constant `INFTY = 1e8` from the source. -/
def INFTY : ℚ := 100000000

/-- Box bound `MAXU = 100` on the control `u`. -/
def MAXU : ℚ := 100

/-- Box bound `MAXX = 100` on the state `x`. -/
def MAXX : ℚ := 100

/-- Working-set recalculation budget `nWSR_cnst = 1000`. -/
def nWSR_cnst : ℕ := 1000

/-- Default `eps = 1e-14` of `solve_controllable_sets`. -/
def eps_default : ℚ := 1 / 100000000000000

/-- Python exceptions that the translated code can raise.
`infeasibleError c i` carries the two booleans interpolated into the
`ValueError` message of `solve_topp` (`controllable` and `infeasible`). -/
inductive Err where
  | assertionError : Err
  | valueError : Err
  | infeasibleError (controllable : Bool) (notInK0 : Bool) : Err
  | typeError : Err
  | indexError : Err
deriving DecidableEq

/-- Outcome of a single qpOASES `init`/`hotstart` call: the return
status (`0` is `SUCCESSFUL_RETURN`), the primal solution delivered by
`getPrimalSolution` and the objective value delivered by `getObjVal`. -/
structure QPResult where
  status : ℤ
  primal : ℕ → ℚ
  objVal : ℚ

/-- Abstract qpOASES backend.  `run st init H g Ai li hi lAi hAi nWSR`
performs one `init` (when `init = true`) or `hotstart` call of a
solver instance whose internal state is `st`, returning the new state
and the call's result.  Nothing is assumed about the answers. -/
structure Backend (σ : Type) where
  run : σ → Bool → (ℕ → ℕ → ℚ) → (ℕ → ℚ) → (ℕ → ℕ → ℚ) → (ℕ → ℚ) → (ℕ → ℚ) →
        (ℕ → ℚ) → (ℕ → ℚ) → ℕ → σ × QPResult

/-- One `PathConstraint` record, exactly the fields the solver reads:
the counts `(nm, neq, niq, nv)`, the canonical coefficients `a, b, c`,
the equality coefficients `abar, bbar, cbar, D`, the inequality
coefficients `G, lG, hG` and the hard slack bounds `l, h`.  All arrays
are indexed `stage → row (→ column)`. -/
structure PathConstraint where
  N : ℕ
  ss : ℕ → ℚ
  nm : ℕ
  neq : ℕ
  niq : ℕ
  nv : ℕ
  a : ℕ → ℕ → ℚ
  b : ℕ → ℕ → ℚ
  c : ℕ → ℕ → ℚ
  abar : ℕ → ℕ → ℚ
  bbar : ℕ → ℕ → ℚ
  cbar : ℕ → ℕ → ℚ
  D : ℕ → ℕ → ℕ → ℚ
  G : ℕ → ℕ → ℕ → ℚ
  lG : ℕ → ℕ → ℚ
  hG : ℕ → ℕ → ℚ
  l : ℕ → ℕ → ℚ
  h : ℕ → ℕ → ℚ

/-- The state of a `qpOASESPPSolver` instance.  `K` and `L` are the
internal `_K` and `_L` arrays (pairs `(lower, upper)` per stage), the
matrices are modelled as total functions (`A : stage → row → column`,
`lA, hA : stage → row`, `l, h : stage → column`, `H : row → column`,
`g : index`), and `up`/`down` are the states of the two qpOASES
solver instances. -/
@[ext]
structure PPSolver (σ : Type) where
  N : ℕ
  ss : ℕ → ℚ
  I0 : ℚ × ℚ
  IN : ℚ × ℚ
  nop : ℕ
  nm : ℕ
  neq : ℕ
  niq : ℕ
  nv : ℕ
  H : ℕ → ℕ → ℚ
  g : ℕ → ℚ
  l : ℕ → ℕ → ℚ
  h : ℕ → ℕ → ℚ
  A : ℕ → ℕ → ℕ → ℚ
  lA : ℕ → ℕ → ℚ
  hA : ℕ → ℕ → ℚ
  K : ℕ → ℚ × ℚ
  L : ℕ → ℚ × ℚ
  up : σ
  down : σ

variable {σ : Type}

/-- `nV = nv + 2`: dimension of the decision vector `(u, x, v)`. -/
def PPSolver.nVdim (s : PPSolver σ) : ℕ := s.nv + 2

/-- `nC = nop + nm + neq + niq`: number of constraint rows. -/
def PPSolver.nCdim (s : PPSolver σ) : ℕ := s.nop + s.nm + s.neq + s.niq

/-- `Ds[i] = ss[i+1] - ss[i]`: grid step widths. -/
def PPSolver.Ds (s : PPSolver σ) (i : ℕ) : ℚ := s.ss (i + 1) - s.ss i

/-- Pointwise update of a vector-as-function. -/
def upd1 (f : ℕ → ℚ) (i : ℕ) (v : ℚ) : ℕ → ℚ :=
  fun a => if a = i then v else f a

/-- Pointwise update of a matrix-as-function. -/
def upd2 (f : ℕ → ℕ → ℚ) (i j : ℕ) (v : ℚ) : ℕ → ℕ → ℚ :=
  fun a => if a = i then upd1 (f a) j v else f a

/-- Pointwise update of a 3-tensor-as-function. -/
def upd3 (f : ℕ → ℕ → ℕ → ℚ) (i j k : ℕ) (v : ℚ) : ℕ → ℕ → ℕ → ℚ :=
  fun a => if a = i then upd2 (f a) j k v else f a

/-- Pointwise update of the `_K`/`_L` arrays. -/
def updK (f : ℕ → ℚ × ℚ) (i : ℕ) (v : ℚ × ℚ) : ℕ → ℚ × ℚ :=
  fun a => if a = i then v else f a

/-- `reset_operational_rows`: zero the first `nop` rows of `A`, `lA`,
`hA` (for every stage) and all of `H` and `g`. -/
def reset_operational_rows (s : PPSolver σ) : PPSolver σ :=
  { s with
    A := fun i r c => if r < s.nop then 0 else s.A i r c,
    lA := fun i r => if r < s.nop then 0 else s.lA i r,
    hA := fun i r => if r < s.nop then 0 else s.hA i r,
    H := fun _ _ => 0,
    g := fun _ => 0 }

/-- Write operational row 0 at stage `i`:
`A[i,0,1] = 1`, `A[i,0,0] = cu`, `lA[i,0] = xmin`, `hA[i,0] = xmax`.
`one_step` uses `cu = 2*Ds[i]`, `reach` and `proj_x_admissible` use
`cu = 0`. -/
def set_row0 (s : PPSolver σ) (i : ℕ) (xmin xmax cu : ℚ) : PPSolver σ :=
  { s with
    A := upd3 (upd3 s.A i 0 1 1) i 0 0 cu,
    lA := upd2 s.lA i 0 xmin,
    hA := upd2 s.hA i 0 xmax }

/-- The solver state at `one_step`'s up call: after the reset,
operational row 0 holds `xmin <= 2*Ds[i]*u + x <= xmax` and the
objective is `g[1] = -1` (maximize `x`). -/
def one_step_up_state (s : PPSolver σ) (i : ℕ) (xmin xmax : ℚ) : PPSolver σ :=
  let sr := reset_operational_rows s
  let sc := set_row0 sr i xmin xmax (2 * (sr.ss (i + 1) - sr.ss i))
  { sc with g := upd1 sc.g 1 (-1) }

/-- The objective posed at `one_step`'s down call: `g[1] = 1`
(minimize `x`). -/
def one_step_down_g (s : PPSolver σ) (i : ℕ) (xmin xmax : ℚ) : ℕ → ℚ :=
  upd1 (one_step_up_state s i xmin xmax).g 1 1

/-- `one_step(i, xmin, xmax, init)`: reset the operational rows, pose
`xmin <= 2*Ds[i]*u + x <= xmax` in operational row 0, run the up
solver with objective `g[1] = -1` (max `x`) and the down solver with
`g[1] = 1` (min `x`), and on success return the `x` components of the
two primal solutions `(xmin_i, xmax_i)`. -/
def one_step (bk : Backend σ) (s : PPSolver σ) (i : ℕ) (xmin xmax : ℚ)
    (init : Bool) : PPSolver σ × Option (ℚ × ℚ) :=
  let s1 := one_step_up_state s i xmin xmax
  let q1 := bk.run s1.up init s1.H s1.g (s1.A i) (s1.l i) (s1.h i)
      (s1.lA i) (s1.hA i) nWSR_cnst
  let s2 := { s1 with g := one_step_down_g s i xmin xmax, up := q1.1 }
  let q2 := bk.run s2.down init s2.H s2.g (s2.A i) (s2.l i) (s2.h i)
      (s2.lA i) (s2.hA i) nWSR_cnst
  ({ s2 with down := q2.1 },
   if q1.2.status = 0 ∧ q2.2.status = 0 then
     some (q2.2.primal 1, q1.2.primal 1)
   else none)

/-- The solver state at `reach`'s up call: operational row 0 holds
`xmin <= x <= xmax` (no reset beforehand) and the objective is
`g[0] = -2*Ds[i]`, `g[1] = -1`, i.e. minimize `-(2*Ds[i]*u + x)`. -/
def reach_up_state (s : PPSolver σ) (i : ℕ) (xmin xmax : ℚ) : PPSolver σ :=
  let sc := set_row0 s i xmin xmax 0
  { sc with g := upd1 (upd1 sc.g 0 (-(2 * (sc.ss (i + 1) - sc.ss i)))) 1 (-1) }

/-- The objective posed at `reach`'s down call: `g[0] = 2*Ds[i]`,
`g[1] = 1` written over the up call's objective. -/
def reach_down_g (s : PPSolver σ) (i : ℕ) (xmin xmax : ℚ) : ℕ → ℚ :=
  upd1 (upd1 (reach_up_state s i xmin xmax).g 0 (2 * (s.ss (i + 1) - s.ss i))) 1 1

/-- `reach(i, xmin, xmax, init)`: no reset; pose `xmin <= x <= xmax`
in operational row 0, run the up solver minimizing
`-(2*Ds[i]*u + x)` and the down solver minimizing `2*Ds[i]*u + x`,
and on success return the pair of objective values
`(objDown, -objUp)` (not the primal solutions). -/
def reach (bk : Backend σ) (s : PPSolver σ) (i : ℕ) (xmin xmax : ℚ)
    (init : Bool) : PPSolver σ × Option (ℚ × ℚ) :=
  let s1 := reach_up_state s i xmin xmax
  let q1 := bk.run s1.up init s1.H s1.g (s1.A i) (s1.l i) (s1.h i)
      (s1.lA i) (s1.hA i) nWSR_cnst
  let s2 := { s1 with g := reach_down_g s i xmin xmax, up := q1.1 }
  let q2 := bk.run s2.down init s2.H s2.g (s2.A i) (s2.l i) (s2.h i)
      (s2.lA i) (s2.hA i) nWSR_cnst
  ({ s2 with down := q2.1 },
   if q1.2.status = 0 ∧ q2.2.status = 0 then
     some (q2.2.objVal, -q1.2.objVal)
   else none)

/-- The solver state at `proj_x_admissible`'s up call: operational
row 0 holds `xmin <= x <= xmax` (no reset) and the objective is
`g[0] = 0`, `g[1] = -1`. -/
def proj_up_state (s : PPSolver σ) (i : ℕ) (xmin xmax : ℚ) : PPSolver σ :=
  let sc := set_row0 s i xmin xmax 0
  { sc with g := upd1 (upd1 sc.g 0 0) 1 (-1) }

/-- The objective posed at `proj_x_admissible`'s down call:
`g[0] = 0`, `g[1] = 1`. -/
def proj_down_g (s : PPSolver σ) (i : ℕ) (xmin xmax : ℚ) : ℕ → ℚ :=
  upd1 (upd1 (proj_up_state s i xmin xmax).g 0 0) 1 1

/-- The extraction tail of `proj_x_admissible`: assert
`xmin_i <= xmax_i + SUPERTINY` (raising `AssertionError` on gross
violation), then snap the upper end to the lower one when
`xmin_i > xmax_i`. -/
def proj_extract (xmin_i xmax_i : ℚ) : Except Err (ℚ × ℚ) :=
  if xmin_i ≤ xmax_i + SUPERTINY then
    .ok (xmin_i, if xmax_i < xmin_i then xmin_i else xmax_i)
  else .error .assertionError

/-- `proj_x_admissible(i, xmin, xmax, init)`: no reset; pose
`xmin <= x <= xmax` in operational row 0, run both solvers with
objectives `∓x`, read the `x` component of both primal solutions and
post-process them with `proj_extract`.  Solver failure yields
`(None, None)`, modelled as `.ok none`. -/
def proj_x_admissible (bk : Backend σ) (s : PPSolver σ) (i : ℕ)
    (xmin xmax : ℚ) (init : Bool) :
    PPSolver σ × Except Err (Option (ℚ × ℚ)) :=
  let s1 := proj_up_state s i xmin xmax
  let q1 := bk.run s1.up init s1.H s1.g (s1.A i) (s1.l i) (s1.h i)
      (s1.lA i) (s1.hA i) nWSR_cnst
  let s2 := { s1 with g := proj_down_g s i xmin xmax, up := q1.1 }
  let q2 := bk.run s2.down init s2.H s2.g (s2.A i) (s2.l i) (s2.h i)
      (s2.lA i) (s2.hA i) nWSR_cnst
  ({ s2 with down := q2.1 },
   if q1.2.status = 0 ∧ q2.2.status = 0 then
     Except.map some (proj_extract (q2.2.primal 1) (q1.2.primal 1))
   else .ok none)

/-- The extraction tail shared by `greedy_step` and
`least_greedy_step`: compute `x_greedy = x + 2*ds*u`, assert
`x_greedy + SUPERTINY >= 0` (raising `AssertionError` otherwise) and
bump a small negative `x_greedy` by `SUPERTINY`. -/
def greedy_extract (x ds u : ℚ) : Except Err (Option (ℚ × ℚ)) :=
  let x_greedy := x + 2 * ds * u
  if 0 ≤ x_greedy + SUPERTINY then
    .ok (some (u, if x_greedy < 0 then x_greedy + SUPERTINY else x_greedy))
  else .error .assertionError

/-- `greedy_step(i, x, xmin, xmax, init, reg)`: reset the operational
rows; pin `x` in operational row 0 and pose
`xmin <= 2*Ds[i]*u + x <= xmax` in row 1; objective `g[0] = -1`
(maximize `u`) plus the slack regularizer `H[2:,2:] += reg*I` when
`nv != 0`; run only the up solver.  On success return
`(u, x + 2*Ds[i]*u)` where the next state is bumped by `SUPERTINY`
when it is negative; the bump is guarded by the assertion
`x_greedy + SUPERTINY >= 0`. -/
def greedy_step (bk : Backend σ) (s : PPSolver σ) (i : ℕ) (x xmin xmax : ℚ)
    (init : Bool) (reg : ℚ) :
    PPSolver σ × Except Err (Option (ℚ × ℚ)) :=
  let sr := reset_operational_rows s
  let s1 := { sr with
    A := upd3 (upd3 (upd3 (upd3 sr.A i 0 1 1) i 0 0 0) i 1 1 1) i 1 0
        (2 * sr.Ds i),
    lA := upd2 (upd2 sr.lA i 0 x) i 1 xmin,
    hA := upd2 (upd2 sr.hA i 0 x) i 1 xmax }
  let s2 := { s1 with
    g := upd1 s1.g 0 (-1),
    H := if s1.nv ≠ 0 then
        (fun r c => if 2 ≤ r ∧ r < s1.nv + 2 ∧ c = r then s1.H r c + reg
          else s1.H r c)
      else s1.H }
  let q1 := bk.run s2.up init s2.H s2.g (s2.A i) (s2.l i) (s2.h i)
      (s2.lA i) (s2.hA i) nWSR_cnst
  ({ s2 with up := q1.1 },
   if q1.2.status = 0 then greedy_extract x (s2.Ds i) (q1.2.primal 0)
   else .ok none)

/-- `least_greedy_step(i, x, xmin, xmax, init, reg)`: like
`greedy_step` but minimizing `u` (`g[0] = 1`).  The source assigns
whole operational rows with the length-2 lists `[0, 1]` and
`[2*Ds[i], 1]`; when the decision vector has slack variables
(`nV = nv + 2 > 2`) numpy cannot broadcast a length-2 list into a
row of length `nV` and raises `ValueError`. -/
def least_greedy_step (bk : Backend σ) (s : PPSolver σ) (i : ℕ)
    (x xmin xmax : ℚ) (init : Bool) (reg : ℚ) :
    PPSolver σ × Except Err (Option (ℚ × ℚ)) :=
  let sr := reset_operational_rows s
  if sr.nv + 2 ≠ 2 then (sr, .error .valueError)
  else
    let s1 := { sr with
      A := upd3 (upd3 (upd3 (upd3 sr.A i 0 0 0) i 0 1 1) i 1 0
          (2 * sr.Ds i)) i 1 1 1,
      lA := upd2 (upd2 sr.lA i 0 x) i 1 xmin,
      hA := upd2 (upd2 sr.hA i 0 x) i 1 xmax }
    let s2 := { s1 with
      g := upd1 s1.g 0 1,
      H := if s1.nv ≠ 0 then
          (fun r c => if 2 ≤ r ∧ r < s1.nv + 2 ∧ c = r then s1.H r c + reg
            else s1.H r c)
        else s1.H }
    let q1 := bk.run s2.up init s2.H s2.g (s2.A i) (s2.l i) (s2.h i)
        (s2.lA i) (s2.hA i) nWSR_cnst
    ({ s2 with up := q1.1 },
     if q1.2.status = 0 then greedy_extract x (s2.Ds i) (q1.2.primal 0)
     else .ok none)

/-- Store one row of the `_K` array. -/
def store_K (s : PPSolver σ) (i : ℕ) (v : ℚ × ℚ) : PPSolver σ :=
  { s with K := updK s.K i v }

/-- The backward loop of `solve_controllable_sets`: with fuel `n`,
process stages `n-1, ..., 0`; at stage `i` compute
`one_step(i, K_lo[i+1], K_hi[i+1], init)` and on success store
`K[i] = (max(lo, 0), hi - eps)`; stop returning `false` on the first
failure; `init` is `true` only for the first processed stage. -/
def csLoop (bk : Backend σ) (eps : ℚ) : ℕ → Bool → PPSolver σ → PPSolver σ × Bool
  | 0, _, s => (s, true)
  | n + 1, init, s =>
    let p := one_step bk s n ((s.K (n + 1)).1) ((s.K (n + 1)).2) init
    match p.2 with
    | none => (p.1, false)
    | some lohi =>
      csLoop bk eps n false (store_K p.1 n (max lohi.1 0, lohi.2 - eps))

/-- `solve_controllable_sets(eps)`: reset the operational rows, seed
`K[N] = proj_x_admissible(N, IN[0], IN[1], init=True)` (stored as
returned, without the `eps` guard), then run the backward loop.
Returns the boolean controllability flag; an assertion failure inside
`proj_x_admissible` propagates as an exception. -/
def solve_controllable_sets (bk : Backend σ) (s : PPSolver σ) (eps : ℚ) :
    Except Err (PPSolver σ × Bool) :=
  let s0 := reset_operational_rows s
  let pr := proj_x_admissible bk s0 s0.N s0.IN.1 s0.IN.2 true
  match pr.2 with
  | .error e => .error e
  | .ok none => .ok (pr.1, false)
  | .ok (some seed) =>
    .ok (csLoop bk eps pr.1.N true (store_K pr.1 pr.1.N seed))

/-- Output of a successful `solve_topp`: the control array `us`
(indices `0..N-1`), the squared-velocity array `xs` (indices `0..N`)
and the final solver state. -/
structure FwdOut (σ : Type) where
  us : ℕ → ℚ
  xs : ℕ → ℚ
  st : PPSolver σ

/-- The forward loop of `solve_topp`: with fuel `n` starting at stage
`i`, take `(u, x_next) = greedy_step(i, xs[i], K_lo[i+1], K_hi[i+1],
init=False, reg)` and store `us[i] = u`, `xs[i+1] = x_next`.  When the
primitive returns `(None, None)` the numpy store `xs[i+1] = None`
raises `TypeError`; an assertion failure propagates. -/
def fwLoop (bk : Backend σ) (reg : ℚ) :
    ℕ → ℕ → PPSolver σ → (ℕ → ℚ) → (ℕ → ℚ) → Except Err (FwdOut σ)
  | 0, _, s, us, xs => .ok ⟨us, xs, s⟩
  | n + 1, i, s, us, xs =>
    let p := greedy_step bk s i (xs i) ((s.K (i + 1)).1) ((s.K (i + 1)).2)
        false reg
    match p.2 with
    | .error e => .error e
    | .ok none => .error .typeError
    | .ok (some ux) =>
      fwLoop bk reg n (i + 1) p.1 (upd1 us i ux.1) (upd1 xs (i + 1) ux.2)

/-- `solve_topp(reg)`: run the backward pass, raise
`ValueError(controllable, infeasible)` when `controllable` is false or
`K_hi[0] < I0[0]` or `K_lo[0] > I0[1]`; otherwise start the forward
pass from `xs[0] = min(K_hi[0], I0[1])`, make one warm-start
`greedy_step(0, xs[0], K_lo[1], K_hi[1], init=True, reg)` whose result
is discarded, and run the forward loop with `init=False`. -/
def solve_topp (bk : Backend σ) (s : PPSolver σ) (reg : ℚ) :
    Except Err (FwdOut σ) :=
  match solve_controllable_sets bk s eps_default with
  | .error e => .error e
  | .ok sc =>
    let s1 := sc.1
    let controllable := sc.2
    let infeasible : Bool :=
      decide ((s1.K 0).2 < s1.I0.1) || decide ((s1.K 0).1 > s1.I0.2)
    if controllable = false ∨ infeasible = true then
      .error (.infeasibleError controllable infeasible)
    else
      let x0 := min ((s1.K 0).2) s1.I0.2
      let xs : ℕ → ℚ := upd1 (fun _ => 0) 0 x0
      let us : ℕ → ℚ := fun _ => 0
      let w := greedy_step bk s1 0 x0 ((s1.K 1).1) ((s1.K 1).2) true reg
      match w.2 with
      | .error e => .error e
      | .ok _ => fwLoop bk reg s1.N 0 w.1 us xs

/-- The two assertions shared by `set_start_interval` and
`set_goal_interval`: `I[1] >= I[0]` and `I[0] >= 0`, in this order. -/
def set_interval_checked (a b : ℚ) : Except Err (ℚ × ℚ) :=
  if b ≥ a then (if a ≥ 0 then .ok (a, b) else .error .assertionError)
  else .error .assertionError

/-- `set_start_interval(I0)`: a scalar `v` (a length-1 array) becomes
`[v, v]`; a length-2 array is taken as is; more than 2 entries raise
`ValueError`; an empty array raises `IndexError` at the first assert;
then the two assertions run and on success `I0` is stored. -/
def set_start_interval (s : PPSolver σ) (inp : List ℚ) :
    Except Err (PPSolver σ) :=
  match inp with
  | [v] => Except.map (fun p => { s with I0 := p }) (set_interval_checked v v)
  | [a, b] => Except.map (fun p => { s with I0 := p }) (set_interval_checked a b)
  | [] => .error .indexError
  | _ => .error .valueError

/-- `set_goal_interval(IN)`: symmetric to `set_start_interval`. -/
def set_goal_interval (s : PPSolver σ) (inp : List ℚ) :
    Except Err (PPSolver σ) :=
  match inp with
  | [v] => Except.map (fun p => { s with IN := p }) (set_interval_checked v v)
  | [a, b] => Except.map (fun p => { s with IN := p }) (set_interval_checked a b)
  | [] => .error .indexError
  | _ => .error .valueError

/-- `np.allclose` with numpy's default tolerances
(`rtol = 1e-5`, `atol = 1e-8`) over the `N+1` grid points. -/
def np_allclose (N : ℕ) (xs ys : ℕ → ℚ) : Bool :=
  (List.range (N + 1)).all fun i =>
    decide (|xs i - ys i| ≤ 1 / 100000000 + (1 / 100000) * |ys i|)

/-- Canonical part of `_fill_matrices`: for each constraint with
`nm != 0` write `A[:,row:row+nm,0] = a`, `A[:,row:row+nm,1] = b`,
`lA[:,row:row+nm] = -INFTY`, `hA[:,row:row+nm] = -c` and advance
`row` by `nm`. -/
def fillCanon : List PathConstraint → PPSolver σ → ℕ → PPSolver σ
  | [], s, _ => s
  | c :: rest, s, row =>
    if c.nm = 0 then fillCanon rest s row
    else
      fillCanon rest
        { s with
          A := fun st r col =>
            if row ≤ r ∧ r < row + c.nm then
              (if col = 0 then c.a st (r - row)
               else if col = 1 then c.b st (r - row)
               else s.A st r col)
            else s.A st r col,
          lA := fun st r =>
            if row ≤ r ∧ r < row + c.nm then -INFTY else s.lA st r,
          hA := fun st r =>
            if row ≤ r ∧ r < row + c.nm then -(c.c st (r - row)) else s.hA st r }
        (row + c.nm)

/-- Equality part of `_fill_matrices`: for each constraint with
`neq != 0` write `A[:,row:row+neq,0] = abar`, `A[:,row:row+neq,1] =
bbar`, `A[:,row:row+neq,col:col+nv] = -D`, `lA = hA = -cbar` and
advance `row` by `neq` and `col` by `nv`.  As in the source, a
constraint with `neq = 0` is filtered out and advances neither
offset. -/
def fillEq : List PathConstraint → PPSolver σ → ℕ → ℕ → PPSolver σ
  | [], s, _, _ => s
  | c :: rest, s, row, col =>
    if c.neq = 0 then fillEq rest s row col
    else
      fillEq rest
        { s with
          A := fun st r cc =>
            if row ≤ r ∧ r < row + c.neq then
              (if cc = 0 then c.abar st (r - row)
               else if cc = 1 then c.bbar st (r - row)
               else if col ≤ cc ∧ cc < col + c.nv then
                 -(c.D st (r - row) (cc - col))
               else s.A st r cc)
            else s.A st r cc,
          lA := fun st r =>
            if row ≤ r ∧ r < row + c.neq then -(c.cbar st (r - row))
            else s.lA st r,
          hA := fun st r =>
            if row ≤ r ∧ r < row + c.neq then -(c.cbar st (r - row))
            else s.hA st r }
        (row + c.neq) (col + c.nv)

/-- Inequality part of `_fill_matrices`: for each constraint with
`niq != 0` write `A[:,row:row+niq,col:col+nv] = G`, `lA = lG`,
`hA = hG` and advance `row` by `niq` and `col` by `nv`. -/
def fillIneq : List PathConstraint → PPSolver σ → ℕ → ℕ → PPSolver σ
  | [], s, _, _ => s
  | c :: rest, s, row, col =>
    if c.niq = 0 then fillIneq rest s row col
    else
      fillIneq rest
        { s with
          A := fun st r cc =>
            if row ≤ r ∧ r < row + c.niq then
              (if col ≤ cc ∧ cc < col + c.nv then c.G st (r - row) (cc - col)
               else s.A st r cc)
            else s.A st r cc,
          lA := fun st r =>
            if row ≤ r ∧ r < row + c.niq then c.lG st (r - row) else s.lA st r,
          hA := fun st r =>
            if row ≤ r ∧ r < row + c.niq then c.hG st (r - row) else s.hA st r }
        (row + c.niq) (col + c.nv)

/-- Slack-bounds part of `_fill_matrices`: for each constraint with
`nv != 0` write `l[:,row:row+nv] = l`, `h[:,row:row+nv] = h` starting
at column 2 and advance by `nv`. -/
def fillBounds : List PathConstraint → PPSolver σ → ℕ → PPSolver σ
  | [], s, _ => s
  | c :: rest, s, row =>
    if c.nv = 0 then fillBounds rest s row
    else
      fillBounds rest
        { s with
          l := fun st col =>
            if row ≤ col ∧ col < row + c.nv then c.l st (col - row)
            else s.l st col,
          h := fun st col =>
            if row ≤ col ∧ col < row + c.nv then c.h st (col - row)
            else s.h st col }
        (row + c.nv)

/-- `_fill_matrices`: zero `g`, `H`, all of `A` and the operational
rows of `lA`, `hA`; fill the canonical rows from `nop`, the equality
rows from `nop + nm`, the inequality rows from `nop + nm + neq` (the
slack columns of both start at 2); then the box bounds
`u ∈ [-MAXU, MAXU]`, `x ∈ [0, MAXX]` and the slack bounds from
column 2. -/
def fill_matrices (cs : List PathConstraint) (s : PPSolver σ) : PPSolver σ :=
  let s0 := { s with
    g := fun _ => 0,
    H := fun _ _ => 0,
    A := fun _ _ _ => 0,
    lA := fun st r => if r < s.nop then 0 else s.lA st r,
    hA := fun st r => if r < s.nop then 0 else s.hA st r }
  let s1 := fillCanon cs s0 s0.nop
  let s2 := fillEq cs s1 (s1.nop + s1.nm) 2
  let s3 := fillIneq cs s2 (s2.nop + s2.nm + s2.neq) 2
  let s4 := { s3 with
    l := fun st col => if col = 0 then -MAXU else if col = 1 then 0 else s3.l st col,
    h := fun st col => if col = 0 then MAXU else if col = 1 then MAXX else s3.h st col }
  fillBounds cs s4 2

/-- `qpOASESPPSolver.__init__`: read `ss` and `N` from the first
constraint (an empty constraint set raises `IndexError`), assert that
every constraint shares the grid (`np.allclose`), set the default
endpoint intervals `[0, 1e-4]`, initialize `_K` and `_L` to `-1`
everywhere, `nop = 3`, sum the constraint dimensions, zero all
matrices and fill them.  `up0`/`down0` are the initial states of the
two qpOASES solver instances. -/
def mkPPSolver (cs : List PathConstraint) (up0 down0 : σ) :
    Except Err (PPSolver σ) :=
  match cs with
  | [] => .error .indexError
  | c0 :: _ =>
    if cs.all (fun c => np_allclose c0.N c.ss c0.ss) then
      .ok (fill_matrices cs
        { N := c0.N
          ss := c0.ss
          I0 := (0, 1 / 10000)
          IN := (0, 1 / 10000)
          nop := 3
          nm := (cs.map PathConstraint.nm).sum
          neq := (cs.map PathConstraint.neq).sum
          niq := (cs.map PathConstraint.niq).sum
          nv := (cs.map PathConstraint.nv).sum
          H := fun _ _ => 0
          g := fun _ => 0
          l := fun _ _ => 0
          h := fun _ _ => 0
          A := fun _ _ _ => 0
          lA := fun _ _ => 0
          hA := fun _ _ => 0
          K := fun _ => (-1, -1)
          L := fun _ => (-1, -1)
          up := up0
          down := down0 })
    else .error .assertionError

/-- The `K` property: the rows of `_K` whose lower end exceeds
`-TINY`. -/
def Kprop (s : PPSolver σ) : List (ℚ × ℚ) :=
  ((List.range (s.N + 1)).filter fun i => decide (-TINY < (s.K i).1)).map s.K

/-- The `L` property: the rows of `_L` whose lower end exceeds
`-TINY`. -/
def Lprop (s : PPSolver σ) : List (ℚ × ℚ) :=
  ((List.range (s.N + 1)).filter fun i => decide (-TINY < (s.L i).1)).map s.L

/-- Whether an `Except` result is a success. -/
def exOk {α : Type} : Except Err α → Bool
  | .ok _ => true
  | .error _ => false

/-- The state/flag pair returned by `solve_controllable_sets`, with
the untouched input state as the default on an exception. -/
def csPair (bk : Backend σ) (s : PPSolver σ) (eps : ℚ) : PPSolver σ × Bool :=
  match solve_controllable_sets bk s eps with
  | .ok p => p
  | .error _ => (s, false)

/-- The solver state after `solve_controllable_sets`. -/
def csState (bk : Backend σ) (s : PPSolver σ) (eps : ℚ) : PPSolver σ :=
  (csPair bk s eps).1

/-- The boolean flag returned by `solve_controllable_sets`. -/
def csFlag (bk : Backend σ) (s : PPSolver σ) (eps : ℚ) : Bool :=
  (csPair bk s eps).2

/-- The `us` array of a forward-pass result (`0` on an exception). -/
def fwUs : Except Err (FwdOut σ) → ℕ → ℚ
  | .ok o => o.us
  | .error _ => fun _ => 0

/-- The `xs` array of a forward-pass result (`0` on an exception). -/
def fwXs : Except Err (FwdOut σ) → ℕ → ℚ
  | .ok o => o.xs
  | .error _ => fun _ => 0

/-- Contract of a real QP solver, restricted to what the claims
need: a successful primal solution respects the box bound on the `x`
component (index 1) whenever that box is non-empty. -/
def FeasibleAtX (bk : Backend σ) : Prop :=
  ∀ st init H g A l h lA hA n,
    (bk.run st init H g A l h lA hA n).2.status = 0 → l 1 ≤ h 1 →
    l 1 ≤ (bk.run st init H g A l h lA hA n).2.primal 1 ∧
    (bk.run st init H g A l h lA hA n).2.primal 1 ≤ h 1

/-- The solver instance built by `mkPPSolver`, with an inert default
when construction raised. -/
def newSolver (cs : List PathConstraint) (up0 down0 : σ) : PPSolver σ :=
  match mkPPSolver cs up0 down0 with
  | .ok s => s
  | .error _ =>
    { N := 0
      ss := fun _ => 0
      I0 := (0, 0)
      IN := (0, 0)
      nop := 3
      nm := 0
      neq := 0
      niq := 0
      nv := 0
      H := fun _ _ => 0
      g := fun _ => 0
      l := fun _ _ => 0
      h := fun _ _ => 0
      A := fun _ _ _ => 0
      lA := fun _ _ => 0
      hA := fun _ _ => 0
      K := fun _ => (-1, -1)
      L := fun _ => (-1, -1)
      up := up0
      down := down0 }

/-- A concrete backend for sanity runs: every call succeeds and the
primal solution is `2` at index 1 and `1` elsewhere. -/
def bkW : Backend ℕ :=
  ⟨fun st _init _H _g _A _l _h _lA _hA _n =>
    (st + 1, ⟨0, fun j => if j = 1 then 2 else 1, 5⟩)⟩

/-- A concrete two-stage solver state (`N = 1`, unit grid, no
constraints) for sanity runs. -/
def sW : PPSolver ℕ :=
  { N := 1
    ss := fun i => (i : ℚ)
    I0 := (0, 1 / 10000)
    IN := (0, 1 / 10000)
    nop := 3
    nm := 0
    neq := 0
    niq := 0
    nv := 0
    H := fun _ _ => 0
    g := fun _ => 0
    l := fun _ c => if c = 0 then -100 else 0
    h := fun _ c => if c = 0 then 100 else if c = 1 then 100 else 0
    A := fun _ _ _ => 0
    lA := fun _ _ => 0
    hA := fun _ _ => 0
    K := fun _ => (-1, -1)
    L := fun _ => (-1, -1)
    up := 0
    down := 0 }

/-- A concrete backend driving `solve_topp` on `sW4` into a full
successful run whose last greedy step returns a slightly negative
next state (`-SUPERTINY/2`), exercising the `SUPERTINY` bump. -/
def bkC4 : Backend ℕ :=
  ⟨fun st _init _H g _A _l _h _lA _hA _n =>
    (st + 1,
     ⟨0,
      fun j =>
        if st = 1 ∧ g 1 = -1 ∧ j = 1 then eps_default
        else if st = 3 ∧ j = 0 then -(SUPERTINY / 4)
        else 0,
      0⟩)⟩

/-- The solver state used together with `bkC4`. -/
def sC4 : PPSolver ℕ :=
  { sW with I0 := (0, 1 / 10000) }

/-- A trivial `PathConstraint` (all counts zero) on the unit
two-point grid. -/
def pcW : PathConstraint :=
  { N := 1
    ss := fun i => (i : ℚ)
    nm := 0
    neq := 0
    niq := 0
    nv := 0
    a := fun _ _ => 0
    b := fun _ _ => 0
    c := fun _ _ => 0
    abar := fun _ _ => 0
    bbar := fun _ _ => 0
    cbar := fun _ _ => 0
    D := fun _ _ _ => 0
    G := fun _ _ _ => 0
    lG := fun _ _ => 0
    hG := fun _ _ => 0
    l := fun _ _ => 0
    h := fun _ _ => 0 }

/-- A concrete backend whose successful answers respect the box bound
on the `x` component: `primal 1 = l 1` whenever `l 1 <= h 1`. -/
def bkF : Backend ℕ :=
  ⟨fun st _init _H _g _A l h _lA _hA _n =>
    (st + 1,
     ⟨0, fun j => if l 1 ≤ h 1 then (if j = 1 then l 1 else 0) else 0, 0⟩)⟩

lemma upd1_self (f : ℕ → ℚ) (i : ℕ) (v : ℚ) : upd1 f i v i = v := by
  simp [upd1]

lemma upd1_frame (f : ℕ → ℚ) (i : ℕ) (v : ℚ) (a : ℕ) (h : a ≠ i) :
    upd1 f i v a = f a := by
  simp [upd1, h]

lemma upd2_frame (f : ℕ → ℕ → ℚ) (i j : ℕ) (v : ℚ) (a b : ℕ)
    (h : ¬(a = i ∧ b = j)) : upd2 f i j v a b = f a b := by
  unfold upd2
  split_ifs with h1
  · subst h1
    exact upd1_frame _ _ _ _ (fun hb => h ⟨rfl, hb⟩)
  · rfl

lemma upd3_frame (f : ℕ → ℕ → ℕ → ℚ) (i j k : ℕ) (v : ℚ) (a b c : ℕ)
    (h : ¬(a = i ∧ b = j ∧ c = k)) : upd3 f i j k v a b c = f a b c := by
  unfold upd3
  split_ifs with h1
  · subst h1
    exact upd2_frame _ _ _ _ _ _ (fun hb => h ⟨rfl, hb⟩)
  · rfl

lemma updK_frame (f : ℕ → ℚ × ℚ) (i : ℕ) (v : ℚ × ℚ) (a : ℕ) (h : a ≠ i) :
    updK f i v a = f a := by
  simp [updK, h]

lemma updK_self (f : ℕ → ℚ × ℚ) (i : ℕ) (v : ℚ × ℚ) : updK f i v i = v := by
  simp [updK]

lemma reset_idem (s : PPSolver σ) :
    reset_operational_rows (reset_operational_rows s) = reset_operational_rows s := by
  apply PPSolver.ext <;> try rfl
  all_goals
    funext i r
    try funext c
  all_goals simp only [reset_operational_rows]
  all_goals split_ifs <;> rfl

lemma one_step_fst_K (bk : Backend σ) (s : PPSolver σ) (i : ℕ)
    (xmin xmax : ℚ) (init : Bool) :
    (one_step bk s i xmin xmax init).1.K = s.K := rfl

lemma one_step_fst_N (bk : Backend σ) (s : PPSolver σ) (i : ℕ)
    (xmin xmax : ℚ) (init : Bool) :
    (one_step bk s i xmin xmax init).1.N = s.N := rfl

lemma one_step_fst_ss (bk : Backend σ) (s : PPSolver σ) (i : ℕ)
    (xmin xmax : ℚ) (init : Bool) :
    (one_step bk s i xmin xmax init).1.ss = s.ss := rfl

lemma one_step_fst_I0 (bk : Backend σ) (s : PPSolver σ) (i : ℕ)
    (xmin xmax : ℚ) (init : Bool) :
    (one_step bk s i xmin xmax init).1.I0 = s.I0 := rfl

lemma one_step_fst_l (bk : Backend σ) (s : PPSolver σ) (i : ℕ)
    (xmin xmax : ℚ) (init : Bool) :
    (one_step bk s i xmin xmax init).1.l = s.l := rfl

lemma one_step_fst_h (bk : Backend σ) (s : PPSolver σ) (i : ℕ)
    (xmin xmax : ℚ) (init : Bool) :
    (one_step bk s i xmin xmax init).1.h = s.h := rfl

lemma proj_fst_K (bk : Backend σ) (s : PPSolver σ) (i : ℕ)
    (xmin xmax : ℚ) (init : Bool) :
    (proj_x_admissible bk s i xmin xmax init).1.K = s.K := rfl

lemma proj_fst_N (bk : Backend σ) (s : PPSolver σ) (i : ℕ)
    (xmin xmax : ℚ) (init : Bool) :
    (proj_x_admissible bk s i xmin xmax init).1.N = s.N := rfl

lemma proj_fst_ss (bk : Backend σ) (s : PPSolver σ) (i : ℕ)
    (xmin xmax : ℚ) (init : Bool) :
    (proj_x_admissible bk s i xmin xmax init).1.ss = s.ss := rfl

lemma proj_fst_I0 (bk : Backend σ) (s : PPSolver σ) (i : ℕ)
    (xmin xmax : ℚ) (init : Bool) :
    (proj_x_admissible bk s i xmin xmax init).1.I0 = s.I0 := rfl

lemma proj_fst_l (bk : Backend σ) (s : PPSolver σ) (i : ℕ)
    (xmin xmax : ℚ) (init : Bool) :
    (proj_x_admissible bk s i xmin xmax init).1.l = s.l := rfl

lemma proj_fst_h (bk : Backend σ) (s : PPSolver σ) (i : ℕ)
    (xmin xmax : ℚ) (init : Bool) :
    (proj_x_admissible bk s i xmin xmax init).1.h = s.h := rfl

lemma greedy_fst_K (bk : Backend σ) (s : PPSolver σ) (i : ℕ)
    (x xmin xmax : ℚ) (init : Bool) (reg : ℚ) :
    (greedy_step bk s i x xmin xmax init reg).1.K = s.K := rfl

lemma greedy_fst_ss (bk : Backend σ) (s : PPSolver σ) (i : ℕ)
    (x xmin xmax : ℚ) (init : Bool) (reg : ℚ) :
    (greedy_step bk s i x xmin xmax init reg).1.ss = s.ss := rfl

lemma greedy_fst_N (bk : Backend σ) (s : PPSolver σ) (i : ℕ)
    (x xmin xmax : ℚ) (init : Bool) (reg : ℚ) :
    (greedy_step bk s i x xmin xmax init reg).1.N = s.N := rfl

lemma reach_fst_K (bk : Backend σ) (s : PPSolver σ) (i : ℕ)
    (xmin xmax : ℚ) (init : Bool) :
    (reach bk s i xmin xmax init).1.K = s.K := rfl

lemma reach_fst_l (bk : Backend σ) (s : PPSolver σ) (i : ℕ)
    (xmin xmax : ℚ) (init : Bool) :
    (reach bk s i xmin xmax init).1.l = s.l := rfl

lemma reach_fst_h (bk : Backend σ) (s : PPSolver σ) (i : ℕ)
    (xmin xmax : ℚ) (init : Bool) :
    (reach bk s i xmin xmax init).1.h = s.h := rfl

lemma csLoop_pres (bk : Backend σ) (eps : ℚ) :
    ∀ (n : ℕ) (init : Bool) (s : PPSolver σ),
      (csLoop bk eps n init s).1.N = s.N ∧ (csLoop bk eps n init s).1.ss = s.ss ∧
      (csLoop bk eps n init s).1.I0 = s.I0 ∧ (csLoop bk eps n init s).1.l = s.l ∧
      (csLoop bk eps n init s).1.h = s.h := by
  intro n
  induction n with
  | zero => exact fun init s => ⟨rfl, rfl, rfl, rfl, rfl⟩
  | succ n ih =>
    intro init s
    simp only [csLoop]
    rcases hr : (one_step bk s n ((s.K (n + 1)).1) ((s.K (n + 1)).2) init).2 with _ | lohi
    · simp only [hr]
      exact ⟨rfl, rfl, rfl, rfl, rfl⟩
    · simp only [hr]
      exact ⟨(ih false _).1, (ih false _).2.1, (ih false _).2.2.1,
        (ih false _).2.2.2.1, (ih false _).2.2.2.2⟩

lemma store_K_K (s : PPSolver σ) (i : ℕ) (v : ℚ × ℚ) :
    (store_K s i v).K = updK s.K i v := rfl

lemma csLoop_char (bk : Backend σ) (eps : ℚ) :
    ∀ (n : ℕ) (init : Bool) (s s' : PPSolver σ), csLoop bk eps n init s = (s', true) →
      (∀ j, n ≤ j → s'.K j = s.K j) ∧
      (∀ i, i < n → ∃ s₀ s₁ b lo hi,
        one_step bk s₀ i ((s₀.K (i + 1)).1) ((s₀.K (i + 1)).2) b = (s₁, some (lo, hi)) ∧
        s₀.K (i + 1) = s'.K (i + 1) ∧ s'.K i = (max lo 0, hi - eps)) := by
  intro n
  induction n with
  | zero =>
    intro init s s' h
    have hs : s = s' := congrArg Prod.fst h
    subst hs
    exact ⟨fun j _ => rfl, fun i hi => absurd hi (Nat.not_lt_zero i)⟩
  | succ n ih =>
    intro init s s' h
    simp only [csLoop] at h
    rcases hr2 : (one_step bk s n ((s.K (n + 1)).1) ((s.K (n + 1)).2) init).2 with _ | lohi
    · rw [hr2] at h
      exact absurd (congrArg Prod.snd h) (by simp)
    · rw [hr2] at h
      obtain ⟨hfr, hint⟩ := ih false _ s' h
      have hupd : ∀ j : ℕ,
          (store_K (one_step bk s n ((s.K (n + 1)).1) ((s.K (n + 1)).2) init).1 n
            (max lohi.1 0, lohi.2 - eps)).K j
          = updK s.K n (max lohi.1 0, lohi.2 - eps) j := fun j => rfl
      constructor
      · intro j hj
        rw [hfr j (Nat.le_of_succ_le hj), hupd j,
          updK_frame _ _ _ _ (by omega)]
      · intro i hi'
        rcases Nat.lt_succ_iff_lt_or_eq.mp hi' with hlt | heq
        · exact hint i hlt
        · subst heq
          refine ⟨s, (one_step bk s i ((s.K (i + 1)).1) ((s.K (i + 1)).2) init).1,
            init, lohi.1, lohi.2, Prod.ext_iff.mpr ⟨rfl, by rw [hr2]⟩, ?_, ?_⟩
          · rw [hfr (i + 1) (Nat.le_succ _), hupd (i + 1),
              updK_frame _ _ _ _ (by omega)]
          · rw [hfr i (Nat.le_refl _), hupd i, updK_self]

lemma csLoop_K_dichot (bk : Backend σ) (eps : ℚ) :
    ∀ (n : ℕ) (init : Bool) (s : PPSolver σ) (j : ℕ),
      (csLoop bk eps n init s).1.K j = s.K j ∨
      0 ≤ ((csLoop bk eps n init s).1.K j).1 := by
  intro n
  induction n with
  | zero => exact fun init s j => Or.inl rfl
  | succ n ih =>
    intro init s j
    simp only [csLoop]
    rcases hr2 : (one_step bk s n ((s.K (n + 1)).1) ((s.K (n + 1)).2) init).2 with _ | lohi
    · exact Or.inl rfl
    · show (csLoop bk eps n false
          (store_K (one_step bk s n ((s.K (n + 1)).1) ((s.K (n + 1)).2) init).1 n
            (max lohi.1 0, lohi.2 - eps))).1.K j = s.K j ∨
        0 ≤ ((csLoop bk eps n false
          (store_K (one_step bk s n ((s.K (n + 1)).1) ((s.K (n + 1)).2) init).1 n
            (max lohi.1 0, lohi.2 - eps))).1.K j).1
      rcases ih false (store_K (one_step bk s n ((s.K (n + 1)).1) ((s.K (n + 1)).2) init).1 n
        (max lohi.1 0, lohi.2 - eps)) j with hsame | hge
      · rw [hsame]
        have hupd : (store_K (one_step bk s n ((s.K (n + 1)).1) ((s.K (n + 1)).2) init).1 n
            (max lohi.1 0, lohi.2 - eps)).K j
            = updK s.K n (max lohi.1 0, lohi.2 - eps) j := rfl
        rw [hupd]
        by_cases hj : j = n
        · subst hj
          rw [updK_self]
          exact Or.inr (le_max_right _ _)
        · rw [updK_frame _ _ _ _ hj]
          exact Or.inl rfl
      · exact Or.inr hge

lemma cs_eq_ok (bk : Backend σ) (s : PPSolver σ) (eps : ℚ)
    (h : exOk (solve_controllable_sets bk s eps) = true) :
    solve_controllable_sets bk s eps = .ok (csState bk s eps, csFlag bk s eps) := by
  unfold csState csFlag csPair
  rcases he : solve_controllable_sets bk s eps with e | p
  · rw [he] at h
    simp [exOk] at h
  · rfl

lemma cs_pres (bk : Backend σ) (s : PPSolver σ) (eps : ℚ) (s1 : PPSolver σ) (b : Bool)
    (h : solve_controllable_sets bk s eps = .ok (s1, b)) :
    s1.N = s.N ∧ s1.ss = s.ss ∧ s1.I0 = s.I0 ∧ s1.l = s.l ∧ s1.h = s.h := by
  simp only [solve_controllable_sets] at h
  rcases hp : (proj_x_admissible bk (reset_operational_rows s)
      (reset_operational_rows s).N (reset_operational_rows s).IN.1
      (reset_operational_rows s).IN.2 true).2 with e | o
  · rw [hp] at h
    exact absurd h (by simp)
  · rw [hp] at h
    cases o with
    | none =>
      have h1 : s1 = (proj_x_admissible bk (reset_operational_rows s)
          (reset_operational_rows s).N (reset_operational_rows s).IN.1
          (reset_operational_rows s).IN.2 true).1 := by
        have := congrArg (fun r => match r with
          | Except.ok (p : PPSolver σ × Bool) => p.1
          | Except.error _ => s1) h
        simpa using this.symm
      rw [h1]
      exact ⟨rfl, rfl, rfl, rfl, rfl⟩
    | some seed =>
      have h1 : s1 = (csLoop bk eps
          (proj_x_admissible bk (reset_operational_rows s)
            (reset_operational_rows s).N (reset_operational_rows s).IN.1
            (reset_operational_rows s).IN.2 true).1.N true
          (store_K (proj_x_admissible bk (reset_operational_rows s)
            (reset_operational_rows s).N (reset_operational_rows s).IN.1
            (reset_operational_rows s).IN.2 true).1
            (proj_x_admissible bk (reset_operational_rows s)
              (reset_operational_rows s).N (reset_operational_rows s).IN.1
              (reset_operational_rows s).IN.2 true).1.N seed)).1 := by
        have := congrArg (fun r => match r with
          | Except.ok (p : PPSolver σ × Bool) => p.1
          | Except.error _ => s1) h
        simpa using this.symm
      rw [h1]
      obtain ⟨c1, c2, c3, c4, c5⟩ := csLoop_pres bk eps _ true
        (store_K (proj_x_admissible bk (reset_operational_rows s)
          (reset_operational_rows s).N (reset_operational_rows s).IN.1
          (reset_operational_rows s).IN.2 true).1
          (proj_x_admissible bk (reset_operational_rows s)
            (reset_operational_rows s).N (reset_operational_rows s).IN.1
            (reset_operational_rows s).IN.2 true).1.N seed)
      exact ⟨c1, c2, c3, c4, c5⟩

lemma if_payload_err {c : Prop} [Decidable c] (a : Except Err (Option (ℚ × ℚ)))
    {e : Err} (h : (if c then a else Except.ok none) = .error e) : a = .error e := by
  split_ifs at h
  exact h

lemma if_payload_some {c : Prop} [Decidable c] (a : Except Err (Option (ℚ × ℚ)))
    {v : ℚ × ℚ} (h : (if c then a else Except.ok none) = .ok (some v)) :
    a = .ok (some v) := by
  split_ifs at h
  · exact h
  · simp at h

lemma greedy_extract_err (x ds u : ℚ) (e : Err)
    (h : greedy_extract x ds u = .error e) : e = .assertionError := by
  simp only [greedy_extract] at h
  split_ifs at h
  injection h with h'
  exact h'.symm

lemma greedy_extract_some (x ds u' u xr : ℚ)
    (h : greedy_extract x ds u' = .ok (some (u, xr))) :
    u' = u ∧ 0 ≤ x + 2 * ds * u + SUPERTINY ∧
    xr = (if x + 2 * ds * u < 0 then x + 2 * ds * u + SUPERTINY
          else x + 2 * ds * u) := by
  simp only [greedy_extract] at h
  split_ifs at h with h1 h2
  · simp only [Except.ok.injEq, Option.some.injEq, Prod.mk.injEq] at h
    obtain ⟨hu, hx⟩ := h
    subst hu
    exact ⟨rfl, h1, by rw [if_pos h2]; exact hx.symm⟩
  · simp only [Except.ok.injEq, Option.some.injEq, Prod.mk.injEq] at h
    obtain ⟨hu, hx⟩ := h
    subst hu
    exact ⟨rfl, h1, by rw [if_neg h2]; exact hx.symm⟩

lemma greedy_err (bk : Backend σ) (s : PPSolver σ) (i : ℕ) (x xmin xmax : ℚ)
    (init : Bool) (reg : ℚ) (e : Err)
    (h : (greedy_step bk s i x xmin xmax init reg).2 = .error e) :
    e = .assertionError := by
  simp only [greedy_step] at h
  exact greedy_extract_err _ _ _ _ (if_payload_err _ h)

lemma greedy_some (bk : Backend σ) (s : PPSolver σ) (i : ℕ) (x xmin xmax : ℚ)
    (init : Bool) (reg : ℚ) (u xr : ℚ)
    (h : (greedy_step bk s i x xmin xmax init reg).2 = .ok (some (u, xr))) :
    0 ≤ x + 2 * s.Ds i * u + SUPERTINY ∧
    xr = (if x + 2 * s.Ds i * u < 0 then x + 2 * s.Ds i * u + SUPERTINY
          else x + 2 * s.Ds i * u) := by
  simp only [greedy_step] at h
  have h2 := greedy_extract_some _ _ _ _ _ (if_payload_some _ h)
  exact ⟨h2.2.1, h2.2.2⟩

lemma fwLoop_ne_infeas (bk : Backend σ) (reg : ℚ) :
    ∀ (n i : ℕ) (s : PPSolver σ) (us xs : ℕ → ℚ) (cb ib : Bool),
      fwLoop bk reg n i s us xs ≠ .error (.infeasibleError cb ib) := by
  intro n
  induction n with
  | zero =>
    intro i s us xs cb ib h
    simp [fwLoop] at h
  | succ n ih =>
    intro i s us xs cb ib h
    simp only [fwLoop] at h
    rcases hg : (greedy_step bk s i (xs i) ((s.K (i + 1)).1) ((s.K (i + 1)).2)
        false reg).2 with e | o
    · rw [hg] at h
      simp only [Except.error.injEq] at h
      have := greedy_err bk s i (xs i) _ _ false reg e hg
      rw [this] at h
      exact Err.noConfusion h
    · rw [hg] at h
      cases o with
      | none => simp at h
      | some ux =>
        exact ih (i + 1) _ _ _ cb ib h

lemma fwLoop_char (bk : Backend σ) (reg : ℚ) :
    ∀ (n i : ℕ) (s : PPSolver σ) (us xs : ℕ → ℚ) (o : FwdOut σ),
      fwLoop bk reg n i s us xs = .ok o →
      (∀ j, j ≤ i → o.xs j = xs j) ∧
      (∀ j, j < i → o.us j = us j) ∧
      (∀ k, k < n → ∃ s₀ s₁ u xnx,
        greedy_step bk s₀ (i + k) (o.xs (i + k)) ((s₀.K (i + k + 1)).1)
          ((s₀.K (i + k + 1)).2) false reg = (s₁, .ok (some (u, xnx))) ∧
        o.us (i + k) = u ∧ o.xs (i + k + 1) = xnx ∧ s₀.ss = s.ss ∧ s₀.K = s.K) := by
  intro n
  induction n with
  | zero =>
    intro i s us xs o h
    simp only [fwLoop, Except.ok.injEq] at h
    subst h
    exact ⟨fun j _ => rfl, fun j _ => rfl, fun k hk => absurd hk (Nat.not_lt_zero k)⟩
  | succ n ih =>
    intro i s us xs o h
    simp only [fwLoop] at h
    rcases hg : (greedy_step bk s i (xs i) ((s.K (i + 1)).1) ((s.K (i + 1)).2)
        false reg).2 with e | oo
    · rw [hg] at h
      exact absurd h (by simp)
    · rw [hg] at h
      cases oo with
      | none => exact absurd h (by simp)
      | some ux =>
        obtain ⟨hx1, hu1, hrest⟩ := ih (i + 1)
          (greedy_step bk s i (xs i) ((s.K (i + 1)).1) ((s.K (i + 1)).2) false reg).1
          (upd1 us i ux.1) (upd1 xs (i + 1) ux.2) o h
        refine ⟨?_, ?_, ?_⟩
        · intro j hj
          rw [hx1 j (Nat.le_succ_of_le hj), upd1_frame _ _ _ _ (by omega)]
        · intro j hj
          rw [hu1 j (Nat.lt_succ_of_lt hj), upd1_frame _ _ _ _ (by omega)]
        · intro k hk
          cases k with
          | zero =>
            refine ⟨s, (greedy_step bk s i (xs i) ((s.K (i + 1)).1) ((s.K (i + 1)).2)
              false reg).1, ux.1, ux.2, ?_, ?_, ?_, rfl, rfl⟩
            · have hx0 : o.xs (i + 0) = xs i := by
                rw [Nat.add_zero, hx1 i (Nat.le_succ _), upd1_frame _ _ _ _ (by omega)]
              rw [hx0]
              show greedy_step bk s i (xs i) ((s.K (i + 1)).1) ((s.K (i + 1)).2)
                false reg = _
              exact Prod.ext_iff.mpr ⟨rfl, by rw [hg]⟩
            · rw [Nat.add_zero, hu1 i (Nat.lt_succ_self _), upd1_self]
            · rw [Nat.add_zero, hx1 (i + 1) (Nat.le_refl _), upd1_self]
          | succ k =>
            have hk' : k < n := by omega
            obtain ⟨s₀, s₁, u, xnx, hgr, hus, hxs, hss, hK⟩ := hrest k hk'
            have hidx : i + (k + 1) = i + 1 + k := by omega
            rw [hidx]
            exact ⟨s₀, s₁, u, xnx, hgr, hus, hxs, hss, hK⟩

lemma if_map_some {c : Prop} [Decidable c] (a : Except Err (ℚ × ℚ)) {p : ℚ × ℚ}
    (h : (if c then Except.map some a else Except.ok none) = .ok (some p)) :
    a = .ok p := by
  split_ifs at h
  · cases a with
    | ok q =>
      have h2 : (Except.ok (some q) : Except Err (Option (ℚ × ℚ))) = .ok (some p) := h
      injection h2 with h3
      injection h3 with h4
      rw [h4]
    | error e =>
      have h2 : (Except.error e : Except Err (Option (ℚ × ℚ))) = .ok (some p) := h
      exact Except.noConfusion h2
  · simp at h

lemma proj_extract_ok (a b : ℚ) (p : ℚ × ℚ) (h : proj_extract a b = .ok p) :
    p.1 ≤ p.2 := by
  simp only [proj_extract] at h
  split_ifs at h with h1 h2
  · injection h with h3
    rw [← h3]
  · injection h with h3
    rw [← h3]
    exact le_of_not_lt h2

/-- C6: on success `proj_x_admissible` returns a pair `(xmin_i,
xmax_i)` with `xmin_i <= xmax_i`; the extraction tail raises
`AssertionError` exactly on a gross violation `xmin_i > xmax_i +
SUPERTINY`, snaps the upper end to the lower one when `xmax_i <
xmin_i <= xmax_i + SUPERTINY`, and passes an ordered pair through
unchanged. -/
theorem C6_proj_x_admissible_postcondition :
    (∀ (σ : Type) (bk : Backend σ) (s : PPSolver σ) (i : ℕ) (xmin xmax : ℚ)
      (init : Bool) (p : ℚ × ℚ),
      (proj_x_admissible bk s i xmin xmax init).2 = .ok (some p) → p.1 ≤ p.2) ∧
    (∀ a b : ℚ,
      (b + SUPERTINY < a → proj_extract a b = .error .assertionError) ∧
      (a ≤ b + SUPERTINY → b < a → proj_extract a b = .ok (a, a)) ∧
      (a ≤ b → proj_extract a b = .ok (a, b))) := by
  constructor
  · intro σ bk s i xmin xmax init p h
    simp only [proj_x_admissible] at h
    exact proj_extract_ok _ _ _ (if_map_some _ h)
  · intro a b
    refine ⟨?_, ?_, ?_⟩
    · intro h
      simp only [proj_extract]
      rw [if_neg (not_le.mpr h)]
    · intro h1 h2
      simp only [proj_extract]
      rw [if_pos h1, if_pos h2]
    · intro h
      have h1 : a ≤ b + SUPERTINY := le_trans h (by norm_num [SUPERTINY])
      simp only [proj_extract]
      rw [if_pos h1, if_neg (not_lt.mpr h)]

/-- Witness for C6: the extraction tail at concrete inputs, and the
ordering of an actual successful `proj_x_admissible` call. -/
theorem C6_witness :
    proj_extract 1 0 = .error .assertionError ∧
    proj_extract 0 1 = .ok (0, 1) ∧
    ((2 : ℚ), (2 : ℚ)).1 ≤ ((2 : ℚ), (2 : ℚ)).2 := by
  refine ⟨(C6_proj_x_admissible_postcondition.2 1 0).1 (by norm_num [SUPERTINY]),
    (C6_proj_x_admissible_postcondition.2 0 1).2.2 (by norm_num),
    C6_proj_x_admissible_postcondition.1 ℕ bkW sW 1 0 5 true (2, 2) ?_⟩
  norm_num [proj_x_admissible, proj_up_state, proj_down_g, set_row0, upd1,
    upd2, upd3, bkW, sW, proj_extract, SUPERTINY, Except.map, nWSR_cnst]

/-- C8: `set_start_interval` (and symmetrically `set_goal_interval`)
turns a scalar `v` into `[v, v]`, rejects a negative lower endpoint
and inverted endpoints with `AssertionError` at configuration time,
stores a valid interval, and raises `ValueError` on inputs longer
than 2. -/
theorem C8_set_interval_validation (σ : Type) (s : PPSolver σ) (v a b : ℚ)
    (inp : List ℚ) :
    (0 ≤ v → set_start_interval s [v] = .ok { s with I0 := (v, v) }) ∧
    (v < 0 → set_start_interval s [v] = .error .assertionError) ∧
    (a ≤ b → 0 ≤ a → set_start_interval s [a, b] = .ok { s with I0 := (a, b) }) ∧
    (b < a → set_start_interval s [a, b] = .error .assertionError) ∧
    (a ≤ b → a < 0 → set_start_interval s [a, b] = .error .assertionError) ∧
    (2 < inp.length → set_start_interval s inp = .error .valueError) ∧
    (0 ≤ v → set_goal_interval s [v] = .ok { s with IN := (v, v) }) ∧
    (v < 0 → set_goal_interval s [v] = .error .assertionError) ∧
    (a ≤ b → 0 ≤ a → set_goal_interval s [a, b] = .ok { s with IN := (a, b) }) ∧
    (b < a → set_goal_interval s [a, b] = .error .assertionError) ∧
    (a ≤ b → a < 0 → set_goal_interval s [a, b] = .error .assertionError) ∧
    (2 < inp.length → set_goal_interval s inp = .error .valueError) := by
  refine ⟨?_, ?_, ?_, ?_, ?_, ?_, ?_, ?_, ?_, ?_, ?_, ?_⟩
  · intro hv
    simp [set_start_interval, set_interval_checked, ge_iff_le, le_refl, hv,
      Except.map]
  · intro hv
    simp [set_start_interval, set_interval_checked, ge_iff_le, le_refl,
      not_le.mpr hv, Except.map]
  · intro hab ha
    simp [set_start_interval, set_interval_checked, ge_iff_le, hab, ha,
      Except.map]
  · intro hba
    simp [set_start_interval, set_interval_checked, ge_iff_le,
      not_le.mpr hba, Except.map]
  · intro hab ha
    simp [set_start_interval, set_interval_checked, ge_iff_le, hab,
      not_le.mpr ha, Except.map]
  · intro hlen
    match inp with
    | [] => simp at hlen
    | [x] => simp at hlen
    | [x, y] => simp at hlen
    | x :: y :: z :: t => rfl
  · intro hv
    simp [set_goal_interval, set_interval_checked, ge_iff_le, le_refl, hv,
      Except.map]
  · intro hv
    simp [set_goal_interval, set_interval_checked, ge_iff_le, le_refl,
      not_le.mpr hv, Except.map]
  · intro hab ha
    simp [set_goal_interval, set_interval_checked, ge_iff_le, hab, ha,
      Except.map]
  · intro hba
    simp [set_goal_interval, set_interval_checked, ge_iff_le,
      not_le.mpr hba, Except.map]
  · intro hab ha
    simp [set_goal_interval, set_interval_checked, ge_iff_le, hab,
      not_le.mpr ha, Except.map]
  · intro hlen
    match inp with
    | [] => simp at hlen
    | [x] => simp at hlen
    | [x, y] => simp at hlen
    | x :: y :: z :: t => rfl

/-- Witness for C8 at concrete inputs. -/
theorem C8_witness :
    set_start_interval sW [(3 : ℚ)] = .ok { sW with I0 := (3, 3) } ∧
    set_goal_interval sW [(-1 : ℚ)] = .error .assertionError ∧
    set_start_interval sW [(1 : ℚ), (2 : ℚ), (3 : ℚ)] = .error .valueError :=
  ⟨(C8_set_interval_validation ℕ sW 3 0 0 []).1 (by norm_num),
   (C8_set_interval_validation ℕ sW (-1) 0 0 []).2.2.2.2.2.2.2.1 (by norm_num),
   (C8_set_interval_validation ℕ sW 0 0 0 [1, 2, 3]).2.2.2.2.2.1 (by norm_num)⟩

/-- C1: `solve_controllable_sets` seeds `K[N]` with the pair returned
by `proj_x_admissible(N, IN_lo, IN_hi)` unchanged (no `eps` shrink,
no clamping), and for every interior stage `i < N` it stores
`K[i] = (max(lo, 0), hi - eps)` where `(lo, hi)` came from a
`one_step` call at stage `i` whose target interval is the stored
`K[i+1]`. -/
theorem C1_solve_controllable_sets_structure (σ : Type) (bk : Backend σ)
    (s : PPSolver σ) (eps : ℚ)
    (h1 : exOk (solve_controllable_sets bk s eps) = true)
    (h2 : csFlag bk s eps = true) :
    (∃ p, (proj_x_admissible bk (reset_operational_rows s)
        (reset_operational_rows s).N (reset_operational_rows s).IN.1
        (reset_operational_rows s).IN.2 true).2 = .ok (some p) ∧
      (csState bk s eps).K s.N = p) ∧
    (∀ i, i < s.N → ∃ s₀ s₁ b lo hi,
      one_step bk s₀ i ((s₀.K (i + 1)).1) ((s₀.K (i + 1)).2) b = (s₁, some (lo, hi)) ∧
      s₀.K (i + 1) = (csState bk s eps).K (i + 1) ∧
      (csState bk s eps).K i = (max lo 0, hi - eps)) := by
  have he := cs_eq_ok bk s eps h1
  rw [h2] at he
  simp only [solve_controllable_sets] at he
  rcases hp : (proj_x_admissible bk (reset_operational_rows s)
      (reset_operational_rows s).N (reset_operational_rows s).IN.1
      (reset_operational_rows s).IN.2 true).2 with e | o
  · rw [hp] at he
    exact absurd he (by simp)
  · rw [hp] at he
    cases o with
    | none =>
      simp only [Except.ok.injEq, Prod.mk.injEq] at he
      exact absurd he.2 (by simp)
    | some seed =>
      have hloop : csLoop bk eps
          (proj_x_admissible bk (reset_operational_rows s)
            (reset_operational_rows s).N (reset_operational_rows s).IN.1
            (reset_operational_rows s).IN.2 true).1.N true
          (store_K (proj_x_admissible bk (reset_operational_rows s)
            (reset_operational_rows s).N (reset_operational_rows s).IN.1
            (reset_operational_rows s).IN.2 true).1
            (proj_x_admissible bk (reset_operational_rows s)
              (reset_operational_rows s).N (reset_operational_rows s).IN.1
              (reset_operational_rows s).IN.2 true).1.N seed)
          = (csState bk s eps, true) := by
        injection he
      obtain ⟨hfr, hint⟩ := csLoop_char bk eps _ true _ _ hloop
      constructor
      · refine ⟨seed, rfl, ?_⟩
        have h3 := hfr s.N (le_refl s.N)
        exact h3.trans (updK_self _ _ _)
      · intro i hi
        obtain ⟨s₀, s₁, b, lo, hi', hone, hK1, hKi⟩ := hint i hi
        exact ⟨s₀, s₁, b, lo, hi', hone, hK1, hKi⟩

/-- Witness for C1: a concrete run with `N = 1` in which the seed
projection returns `(2, 2)` and the stored `K[0]` is
`(2, 2 - eps)`. -/
theorem C1_witness :
    (exOk (solve_controllable_sets bkW sW eps_default) = true ∧
     csFlag bkW sW eps_default = true) ∧
    (∃ p, (proj_x_admissible bkW (reset_operational_rows sW)
        (reset_operational_rows sW).N (reset_operational_rows sW).IN.1
        (reset_operational_rows sW).IN.2 true).2 = .ok (some p) ∧
      (csState bkW sW eps_default).K sW.N = p) := by
  have e1 : exOk (solve_controllable_sets bkW sW eps_default) = true := by
    norm_num [solve_controllable_sets, proj_x_admissible, proj_up_state,
      proj_down_g, set_row0, csLoop, one_step, one_step_up_state, one_step_down_g, reset_operational_rows, store_K,
      upd1, upd2, upd3, updK, proj_extract, SUPERTINY, eps_default, nWSR_cnst,
      bkW, sW, exOk, Except.map]
  have e2 : csFlag bkW sW eps_default = true := by
    norm_num [csFlag, csPair, solve_controllable_sets, proj_x_admissible,
      proj_up_state, proj_down_g, set_row0, csLoop, one_step, one_step_up_state, one_step_down_g,
      reset_operational_rows, store_K, upd1, upd2, upd3, updK, proj_extract,
      SUPERTINY, eps_default, nWSR_cnst, bkW, sW, Except.map]
  exact ⟨⟨e1, e2⟩,
    (C1_solve_controllable_sets_structure ℕ bkW sW eps_default e1 e2).1⟩

/-- C2: after the backward pass returns, `solve_topp` raises the
infeasibility `ValueError` (whose message carries the two booleans)
exactly when the flag is false, or `K_hi[0] < I0_lo`, or
`K_lo[0] > I0_hi`; when none of the three conditions holds it never
raises that error (it proceeds to the forward pass, whose only
exceptions are `AssertionError` and `TypeError`). -/
theorem C2_solve_topp_raise_condition (σ : Type) (bk : Backend σ)
    (s : PPSolver σ) (reg : ℚ)
    (h : exOk (solve_controllable_sets bk s eps_default) = true) :
    (solve_topp bk s reg =
      .error (.infeasibleError (csFlag bk s eps_default)
        (decide (((csState bk s eps_default).K 0).2 < (csState bk s eps_default).I0.1) ||
         decide (((csState bk s eps_default).K 0).1 > (csState bk s eps_default).I0.2)))
      ↔ (csFlag bk s eps_default = false ∨
         ((csState bk s eps_default).K 0).2 < (csState bk s eps_default).I0.1 ∨
         ((csState bk s eps_default).K 0).1 > (csState bk s eps_default).I0.2)) ∧
    (¬(csFlag bk s eps_default = false ∨
        ((csState bk s eps_default).K 0).2 < (csState bk s eps_default).I0.1 ∨
        ((csState bk s eps_default).K 0).1 > (csState bk s eps_default).I0.2) →
      ∀ cb ib, solve_topp bk s reg ≠ .error (.infeasibleError cb ib)) := by
  have he := cs_eq_ok bk s eps_default h
  have hno : ¬(csFlag bk s eps_default = false ∨
      ((csState bk s eps_default).K 0).2 < (csState bk s eps_default).I0.1 ∨
      ((csState bk s eps_default).K 0).1 > (csState bk s eps_default).I0.2) →
      ∀ cb ib, solve_topp bk s reg ≠ .error (.infeasibleError cb ib) := by
    intro hc cb ib herr
    have hc1 : ¬(csFlag bk s eps_default = false) := fun hh => hc (Or.inl hh)
    have hc2 : ¬(((csState bk s eps_default).K 0).2 < (csState bk s eps_default).I0.1) :=
      fun hh => hc (Or.inr (Or.inl hh))
    have hc3 : ¬(((csState bk s eps_default).K 0).1 > (csState bk s eps_default).I0.2) :=
      fun hh => hc (Or.inr (Or.inr hh))
    simp only [solve_topp, he] at herr
    rw [if_neg ?ncond] at herr
    case ncond =>
      intro hcontra
      rcases hcontra with hh | hh
      · exact hc1 hh
      · rw [decide_eq_false hc2, decide_eq_false hc3] at hh
        simp at hh
    rcases hg : (greedy_step bk (csState bk s eps_default) 0
        (min ((csState bk s eps_default).K 0).2 (csState bk s eps_default).I0.2)
        (((csState bk s eps_default).K 1).1) (((csState bk s eps_default).K 1).2)
        true reg).2 with e | w
    · rw [hg] at herr
      injection herr with h'
      have ha := greedy_err bk (csState bk s eps_default) 0 _ _ _ true reg e hg
      rw [ha] at h'
      exact Err.noConfusion h'
    · rw [hg] at herr
      exact fwLoop_ne_infeas bk reg _ 0 _ _ _ cb ib herr
  refine ⟨⟨?_, ?_⟩, hno⟩
  · intro herr
    by_contra hc
    exact hno hc _ _ herr
  · intro hcond
    simp only [solve_topp, he]
    rw [if_pos ?pcond]
    case pcond =>
      rcases hcond with hh | hh | hh
      · exact Or.inl hh
      · refine Or.inr ?_
        simp [hh]
      · refine Or.inr ?_
        simp [hh]

/-- Witness for C2: with `bkW`/`sW` the backward pass succeeds with
`K[0] = (2, 2 - eps)` while `I0 = [0, 1e-4]`, so `K_lo[0] > I0_hi`
holds and `solve_topp` raises the infeasibility error. -/
theorem C2_witness :
    exOk (solve_controllable_sets bkW sW eps_default) = true ∧
    (solve_topp bkW sW 0 =
      .error (.infeasibleError (csFlag bkW sW eps_default)
        (decide (((csState bkW sW eps_default).K 0).2 < (csState bkW sW eps_default).I0.1) ||
         decide (((csState bkW sW eps_default).K 0).1 > (csState bkW sW eps_default).I0.2)))
      ↔ (csFlag bkW sW eps_default = false ∨
         ((csState bkW sW eps_default).K 0).2 < (csState bkW sW eps_default).I0.1 ∨
         ((csState bkW sW eps_default).K 0).1 > (csState bkW sW eps_default).I0.2)) := by
  have e1 : exOk (solve_controllable_sets bkW sW eps_default) = true := by
    norm_num [solve_controllable_sets, proj_x_admissible, proj_up_state,
      proj_down_g, set_row0, csLoop, one_step, one_step_up_state, one_step_down_g, reset_operational_rows, store_K,
      upd1, upd2, upd3, updK, proj_extract, SUPERTINY, eps_default, nWSR_cnst,
      bkW, sW, exOk, Except.map]
  exact ⟨e1, (C2_solve_topp_raise_condition ℕ bkW sW 0 e1).1⟩

lemma solve_topp_ok (bk : Backend σ) (s : PPSolver σ) (reg : ℚ) (o : FwdOut σ)
    (h : solve_topp bk s reg = .ok o) :
    exOk (solve_controllable_sets bk s eps_default) = true ∧
    fwLoop bk reg (csState bk s eps_default).N 0
      (greedy_step bk (csState bk s eps_default) 0
        (min ((csState bk s eps_default).K 0).2 (csState bk s eps_default).I0.2)
        (((csState bk s eps_default).K 1).1) (((csState bk s eps_default).K 1).2)
        true reg).1
      (fun _ => 0)
      (upd1 (fun _ => 0) 0 (min ((csState bk s eps_default).K 0).2
        (csState bk s eps_default).I0.2)) = .ok o := by
  rcases hcs : solve_controllable_sets bk s eps_default with e | sc
  · simp only [solve_topp, hcs] at h
    exact absurd h (by simp)
  · have hok : exOk (solve_controllable_sets bk s eps_default) = true := by
      rw [hcs]; rfl
    have h1 : csState bk s eps_default = sc.1 := by
      unfold csState csPair
      rw [hcs]
    simp only [solve_topp, hcs] at h
    split_ifs at h with hcond
    rcases hg : (greedy_step bk sc.1 0 (min ((sc.1.K 0).2) sc.1.I0.2)
        ((sc.1.K 1).1) ((sc.1.K 1).2) true reg).2 with e | w
    · rw [hg] at h
      exact absurd h (by simp)
    · rw [hg] at h
      refine ⟨rfl, ?_⟩
      rw [h1]
      exact h

/-- C3: whenever `solve_topp` returns output arrays (instead of
raising), every one of the `N` forward greedy steps returned a
feasible pair `(u, x_next)` with `init=False`, and the arrays record
exactly those pairs; equivalently, an infeasible `greedy_step` at any
forward stage makes `solve_topp` raise rather than return. -/
theorem C3_forward_infeasibility_raises (σ : Type) (bk : Backend σ)
    (s : PPSolver σ) (reg : ℚ)
    (h : exOk (solve_topp bk s reg) = true) :
    ∀ i, i < s.N → ∃ s₀ s₁ u xnx,
      greedy_step bk s₀ i (fwXs (solve_topp bk s reg) i) ((s₀.K (i + 1)).1)
        ((s₀.K (i + 1)).2) false reg = (s₁, .ok (some (u, xnx))) ∧
      fwUs (solve_topp bk s reg) i = u ∧
      fwXs (solve_topp bk s reg) (i + 1) = xnx ∧
      s₀.K = (csState bk s eps_default).K := by
  intro i hi
  rcases ho : solve_topp bk s reg with e | o
  · rw [ho] at h
    simp [exOk] at h
  · obtain ⟨hok, hfw⟩ := solve_topp_ok bk s reg o ho
    obtain ⟨hx1, hu1, hrest⟩ := fwLoop_char bk reg _ 0 _ _ _ o hfw
    have hN : (csState bk s eps_default).N = s.N :=
      (cs_pres bk s eps_default _ _ (cs_eq_ok bk s eps_default hok)).1
    obtain ⟨s₀, s₁, u, xnx, hgr, hus, hxs, hss, hK⟩ := hrest i (by omega)
    have hgr' : greedy_step bk s₀ i (o.xs i) ((s₀.K (i + 1)).1) ((s₀.K (i + 1)).2)
        false reg = (s₁, .ok (some (u, xnx))) := by
      simpa using hgr
    refine ⟨s₀, s₁, u, xnx, ?_, ?_, ?_, ?_⟩
    · exact hgr'
    · simpa [fwUs] using hus
    · simpa [fwXs] using hxs
    · exact hK.trans (greedy_fst_K bk (csState bk s eps_default) 0 _ _ _ true reg)

/-- Witness for C3: the concrete run `solve_topp bkC4 sC4 0`
succeeds, and the theorem applied at stage 0 exhibits its greedy
step. -/
theorem C3_witness :
    exOk (solve_topp bkC4 sC4 0) = true ∧
    (∃ s₀ s₁ u xnx,
      greedy_step bkC4 s₀ 0 (fwXs (solve_topp bkC4 sC4 0) 0) ((s₀.K 1).1)
        ((s₀.K 1).2) false 0 = (s₁, .ok (some (u, xnx))) ∧
      fwUs (solve_topp bkC4 sC4 0) 0 = u ∧
      fwXs (solve_topp bkC4 sC4 0) 1 = xnx ∧
      s₀.K = (csState bkC4 sC4 eps_default).K) := by
  have e1 : exOk (solve_topp bkC4 sC4 0) = true := by
    norm_num [solve_topp, solve_controllable_sets, proj_x_admissible,
      proj_up_state, proj_down_g, set_row0, csLoop, one_step, one_step_up_state, one_step_down_g,
      reset_operational_rows, store_K, updK, upd1, upd2, upd3, proj_extract,
      greedy_step, greedy_extract, fwLoop, PPSolver.Ds, SUPERTINY, eps_default,
      nWSR_cnst, bkC4, sC4, sW, exOk, Except.map]
  exact ⟨e1, C3_forward_infeasibility_raises ℕ bkC4 sC4 0 e1 0 (by norm_num [sC4, sW])⟩

/-- Counterexample for C4: a successful `solve_topp` run (backend
`bkC4`) in which the greedy step at stage 0 returns
`u = -SUPERTINY/4`, so `x[0] + 2*Ds[0]*u[0] = -SUPERTINY/2 < 0` and
`greedy_step` returns it bumped by `SUPERTINY`; the returned arrays
violate `x[1] = x[0] + 2*Ds[0]*u[0]`. -/
theorem C4_counterexample :
    exOk (solve_topp bkC4 sC4 0) = true ∧
    fwXs (solve_topp bkC4 sC4 0) 1 ≠
      fwXs (solve_topp bkC4 sC4 0) 0 +
        2 * sC4.Ds 0 * fwUs (solve_topp bkC4 sC4 0) 0 := by
  constructor
  · norm_num [solve_topp, solve_controllable_sets, proj_x_admissible,
      proj_up_state, proj_down_g, set_row0, csLoop, one_step, one_step_up_state, one_step_down_g,
      reset_operational_rows, store_K, updK, upd1, upd2, upd3, proj_extract,
      greedy_step, greedy_extract, fwLoop, PPSolver.Ds, SUPERTINY, eps_default,
      nWSR_cnst, bkC4, sC4, sW, exOk, Except.map]
  · norm_num [solve_topp, solve_controllable_sets, proj_x_admissible,
      proj_up_state, proj_down_g, set_row0, csLoop, one_step, one_step_up_state, one_step_down_g,
      reset_operational_rows, store_K, updK, upd1, upd2, upd3, proj_extract,
      greedy_step, greedy_extract, fwLoop, PPSolver.Ds, SUPERTINY, eps_default,
      nWSR_cnst, bkC4, sC4, sW, fwXs, fwUs, Except.map]

/-- C4 (amended): after a successful `solve_topp`, for every stage
`i < N` the dynamics `x[i+1] = x[i] + 2*Ds[i]*u[i]` holds exactly
whenever `x[i] + 2*Ds[i]*u[i] >= 0`; when that value is negative it
lies within `SUPERTINY` of zero and the returned `x[i+1]` is
`x[i] + 2*Ds[i]*u[i] + SUPERTINY` (the numerical guard of
`greedy_step`). -/
theorem C4_amended_dynamics (σ : Type) (bk : Backend σ) (s : PPSolver σ)
    (reg : ℚ) (h : exOk (solve_topp bk s reg) = true) :
    ∀ i, i < s.N →
      (0 ≤ fwXs (solve_topp bk s reg) i +
          2 * s.Ds i * fwUs (solve_topp bk s reg) i →
        fwXs (solve_topp bk s reg) (i + 1) =
          fwXs (solve_topp bk s reg) i +
            2 * s.Ds i * fwUs (solve_topp bk s reg) i) ∧
      (fwXs (solve_topp bk s reg) i +
          2 * s.Ds i * fwUs (solve_topp bk s reg) i < 0 →
        -SUPERTINY ≤ fwXs (solve_topp bk s reg) i +
            2 * s.Ds i * fwUs (solve_topp bk s reg) i ∧
        fwXs (solve_topp bk s reg) (i + 1) =
          fwXs (solve_topp bk s reg) i +
            2 * s.Ds i * fwUs (solve_topp bk s reg) i + SUPERTINY) := by
  intro i hi
  rcases ho : solve_topp bk s reg with e | o
  · rw [ho] at h
    simp [exOk] at h
  · obtain ⟨hok, hfw⟩ := solve_topp_ok bk s reg o ho
    obtain ⟨hx1, hu1, hrest⟩ := fwLoop_char bk reg _ 0 _ _ _ o hfw
    have hN : (csState bk s eps_default).N = s.N :=
      (cs_pres bk s eps_default _ _ (cs_eq_ok bk s eps_default hok)).1
    obtain ⟨s₀, s₁, u, xnx, hgr, hus, hxs, hss, hK⟩ := hrest i (by omega)
    have hgr' : greedy_step bk s₀ i (o.xs i) ((s₀.K (i + 1)).1) ((s₀.K (i + 1)).2)
        false reg = (s₁, .ok (some (u, xnx))) := by
      simpa using hgr
    have hus' : o.us i = u := by simpa using hus
    have hxs' : o.xs (i + 1) = xnx := by simpa using hxs
    have hssS : s₀.ss = s.ss := by
      refine hss.trans ?_
      have h2 : (greedy_step bk (csState bk s eps_default) 0
          (min ((csState bk s eps_default).K 0).2 (csState bk s eps_default).I0.2)
          (((csState bk s eps_default).K 1).1) (((csState bk s eps_default).K 1).2)
          true reg).1.ss = (csState bk s eps_default).ss := rfl
      exact h2.trans (cs_pres bk s eps_default _ _ (cs_eq_ok bk s eps_default hok)).2.1
    have hgs := greedy_some bk s₀ i (o.xs i) _ _ false reg u xnx
      (congrArg Prod.snd hgr')
    have hDs : s₀.Ds i = s.Ds i := by
      unfold PPSolver.Ds
      rw [hssS]
    rw [hDs] at hgs
    constructor
    · intro hpos
      simp only [fwXs, fwUs] at hpos ⊢
      rw [hus'] at hpos ⊢
      rw [hxs', hgs.2, if_neg (not_lt.mpr hpos)]
    · intro hneg
      simp only [fwXs, fwUs] at hneg ⊢
      rw [hus'] at hneg ⊢
      refine ⟨by linarith [hgs.1], ?_⟩
      rw [hxs', hgs.2, if_pos hneg]

/-- Witness for C4 (amended): in the `bkC4` run the stage-0 value
`x[0] + 2*Ds[0]*u[0]` is negative and the returned `x[1]` is that
value bumped by `SUPERTINY`. -/
theorem C4_amended_witness :
    exOk (solve_topp bkC4 sC4 0) = true ∧
    -SUPERTINY ≤ fwXs (solve_topp bkC4 sC4 0) 0 +
        2 * sC4.Ds 0 * fwUs (solve_topp bkC4 sC4 0) 0 ∧
    fwXs (solve_topp bkC4 sC4 0) 1 =
      fwXs (solve_topp bkC4 sC4 0) 0 +
        2 * sC4.Ds 0 * fwUs (solve_topp bkC4 sC4 0) 0 + SUPERTINY := by
  have e1 : exOk (solve_topp bkC4 sC4 0) = true := by
    norm_num [solve_topp, solve_controllable_sets, proj_x_admissible,
      proj_up_state, proj_down_g, set_row0, csLoop, one_step, one_step_up_state, one_step_down_g,
      reset_operational_rows, store_K, updK, upd1, upd2, upd3, proj_extract,
      greedy_step, greedy_extract, fwLoop, PPSolver.Ds, SUPERTINY, eps_default,
      nWSR_cnst, bkC4, sC4, sW, exOk, Except.map]
  have hneg : fwXs (solve_topp bkC4 sC4 0) 0 +
      2 * sC4.Ds 0 * fwUs (solve_topp bkC4 sC4 0) 0 < 0 := by
    norm_num [solve_topp, solve_controllable_sets, proj_x_admissible,
      proj_up_state, proj_down_g, set_row0, csLoop, one_step, one_step_up_state, one_step_down_g,
      reset_operational_rows, store_K, updK, upd1, upd2, upd3, proj_extract,
      greedy_step, greedy_extract, fwLoop, PPSolver.Ds, SUPERTINY, eps_default,
      nWSR_cnst, bkC4, sC4, sW, fwXs, fwUs, Except.map]
  have hmain := (C4_amended_dynamics ℕ bkC4 sC4 0 e1 0 (by norm_num [sC4, sW])).2 hneg
  exact ⟨e1, hmain.1, hmain.2⟩

/-- C5: when the feasibility check passes, the forward pass of
`solve_topp` starts from `x[0] = min(K_hi[0], I0_hi)` (ignoring
`I0_lo`); one extra `greedy_step` at stage 0 with `init=True` is
performed whose returned pair is discarded (only its solver-state
side effect and a possible exception survive); and the output loop
takes every `(u[i], x[i+1])` from `greedy_step` with `init=False`
against the stored bounds `K[i+1]`. -/
theorem C5_forward_pass_structure (σ : Type) (bk : Backend σ) (s : PPSolver σ)
    (reg : ℚ)
    (hok : exOk (solve_controllable_sets bk s eps_default) = true)
    (hflag : csFlag bk s eps_default = true)
    (hfeas : ¬(((csState bk s eps_default).K 0).2 < (csState bk s eps_default).I0.1 ∨
        ((csState bk s eps_default).K 0).1 > (csState bk s eps_default).I0.2)) :
    (exOk (solve_topp bk s reg) = true →
      fwXs (solve_topp bk s reg) 0 =
        min ((csState bk s eps_default).K 0).2 (csState bk s eps_default).I0.2) ∧
    (∀ s2 e, greedy_step bk (csState bk s eps_default) 0
        (min ((csState bk s eps_default).K 0).2 (csState bk s eps_default).I0.2)
        (((csState bk s eps_default).K 1).1) (((csState bk s eps_default).K 1).2)
        true reg = (s2, .error e) →
      solve_topp bk s reg = .error e) ∧
    (∀ s2 w, greedy_step bk (csState bk s eps_default) 0
        (min ((csState bk s eps_default).K 0).2 (csState bk s eps_default).I0.2)
        (((csState bk s eps_default).K 1).1) (((csState bk s eps_default).K 1).2)
        true reg = (s2, .ok w) →
      solve_topp bk s reg = fwLoop bk reg (csState bk s eps_default).N 0 s2
        (fun _ => 0)
        (upd1 (fun _ => 0) 0 (min ((csState bk s eps_default).K 0).2
          (csState bk s eps_default).I0.2))) ∧
    (exOk (solve_topp bk s reg) = true →
      ∀ i, i < s.N → ∃ s₀ s₁ u xnx,
        greedy_step bk s₀ i (fwXs (solve_topp bk s reg) i) ((s₀.K (i + 1)).1)
          ((s₀.K (i + 1)).2) false reg = (s₁, .ok (some (u, xnx))) ∧
        s₀.K (i + 1) = (csState bk s eps_default).K (i + 1)) := by
  have he := cs_eq_ok bk s eps_default hok
  rw [hflag] at he
  have hc2 : ¬(((csState bk s eps_default).K 0).2 < (csState bk s eps_default).I0.1) :=
    fun hh => hfeas (Or.inl hh)
  have hc3 : ¬(((csState bk s eps_default).K 0).1 > (csState bk s eps_default).I0.2) :=
    fun hh => hfeas (Or.inr hh)
  have hred : solve_topp bk s reg =
      (match (greedy_step bk (csState bk s eps_default) 0
          (min ((csState bk s eps_default).K 0).2 (csState bk s eps_default).I0.2)
          (((csState bk s eps_default).K 1).1) (((csState bk s eps_default).K 1).2)
          true reg).2 with
        | .error e => .error e
        | .ok _ => fwLoop bk reg (csState bk s eps_default).N 0
            (greedy_step bk (csState bk s eps_default) 0
              (min ((csState bk s eps_default).K 0).2 (csState bk s eps_default).I0.2)
              (((csState bk s eps_default).K 1).1) (((csState bk s eps_default).K 1).2)
              true reg).1
            (fun _ => 0)
            (upd1 (fun _ => 0) 0 (min ((csState bk s eps_default).K 0).2
              (csState bk s eps_default).I0.2))) := by
    simp only [solve_topp, he]
    rw [if_neg ?ncond]
    case ncond =>
      intro hcontra
      rcases hcontra with hh | hh
      · exact Bool.noConfusion hh
      · rw [decide_eq_false hc2, decide_eq_false hc3] at hh
        simp at hh
  refine ⟨?_, ?_, ?_, ?_⟩
  · intro hsucc
    rcases ho : solve_topp bk s reg with e | o
    · rw [ho] at hsucc
      simp [exOk] at hsucc
    · obtain ⟨-, hfw⟩ := solve_topp_ok bk s reg o ho
      obtain ⟨hx1, -, -⟩ := fwLoop_char bk reg _ 0 _ _ _ o hfw
      simp only [fwXs]
      rw [hx1 0 (le_refl 0), upd1_self]
  · intro s2 e hg
    rw [hred, congrArg Prod.snd hg]
  · intro s2 w hg
    rw [hred, congrArg Prod.snd hg, congrArg Prod.fst hg]
  · intro hsucc
    intro i hi
    rcases ho : solve_topp bk s reg with e | o
    · rw [ho] at hsucc
      simp [exOk] at hsucc
    · obtain ⟨hok2, hfw⟩ := solve_topp_ok bk s reg o ho
      obtain ⟨hx1, hu1, hrest⟩ := fwLoop_char bk reg _ 0 _ _ _ o hfw
      have hN : (csState bk s eps_default).N = s.N :=
        (cs_pres bk s eps_default _ _ (cs_eq_ok bk s eps_default hok2)).1
      obtain ⟨s₀, s₁, u, xnx, hgr, hus, hxs, hss, hK⟩ := hrest i (by omega)
      have hgr' : greedy_step bk s₀ i (o.xs i) ((s₀.K (i + 1)).1) ((s₀.K (i + 1)).2)
          false reg = (s₁, .ok (some (u, xnx))) := by
        simpa using hgr
      refine ⟨s₀, s₁, u, xnx, hgr', ?_⟩
      have hK' : s₀.K = (csState bk s eps_default).K :=
        hK.trans (greedy_fst_K bk (csState bk s eps_default) 0 _ _ _ true reg)
      exact congrFun hK' (i + 1)

/-- Witness for C5: in the `bkC4` run the check passes and
`x[0] = min(K_hi[0], I0_hi) = 0`. -/
theorem C5_witness :
    (exOk (solve_controllable_sets bkC4 sC4 eps_default) = true ∧
     csFlag bkC4 sC4 eps_default = true ∧
     ¬(((csState bkC4 sC4 eps_default).K 0).2 < (csState bkC4 sC4 eps_default).I0.1 ∨
       ((csState bkC4 sC4 eps_default).K 0).1 > (csState bkC4 sC4 eps_default).I0.2)) ∧
    (exOk (solve_topp bkC4 sC4 0) = true →
      fwXs (solve_topp bkC4 sC4 0) 0 =
        min ((csState bkC4 sC4 eps_default).K 0).2 (csState bkC4 sC4 eps_default).I0.2) := by
  have e1 : exOk (solve_controllable_sets bkC4 sC4 eps_default) = true := by
    norm_num [solve_controllable_sets, proj_x_admissible, proj_up_state,
      proj_down_g, set_row0, csLoop, one_step, one_step_up_state, one_step_down_g, reset_operational_rows, store_K,
      updK, upd1, upd2, upd3, proj_extract, PPSolver.Ds, SUPERTINY, eps_default,
      nWSR_cnst, bkC4, sC4, sW, exOk, Except.map]
  have e2 : csFlag bkC4 sC4 eps_default = true := by
    norm_num [csFlag, csPair, solve_controllable_sets, proj_x_admissible,
      proj_up_state, proj_down_g, set_row0, csLoop, one_step, one_step_up_state, one_step_down_g,
      reset_operational_rows, store_K, updK, upd1, upd2, upd3, proj_extract,
      PPSolver.Ds, SUPERTINY, eps_default, nWSR_cnst, bkC4, sC4, sW, Except.map]
  have e3 : ¬(((csState bkC4 sC4 eps_default).K 0).2 < (csState bkC4 sC4 eps_default).I0.1 ∨
      ((csState bkC4 sC4 eps_default).K 0).1 > (csState bkC4 sC4 eps_default).I0.2) := by
    norm_num [csState, csPair, solve_controllable_sets, proj_x_admissible,
      proj_up_state, proj_down_g, set_row0, csLoop, one_step, one_step_up_state, one_step_down_g,
      reset_operational_rows, store_K, updK, upd1, upd2, upd3, proj_extract,
      PPSolver.Ds, SUPERTINY, eps_default, nWSR_cnst, bkC4, sC4, sW, Except.map]
  exact ⟨⟨e1, e2, e3⟩,
    (C5_forward_pass_structure ℕ bkC4 sC4 0 e1 e2 e3).1⟩

/-- C7: `reach` poses the up objective `g[0] = -2*Ds[i], g[1] = -1`
and the down objective `g[0] = 2*Ds[i], g[1] = 1`, and on success its
result is read from the two objective values as
`(objDown, -objUp)`; `one_step` and `proj_x_admissible` instead read
the `x` component (index 1) of the primal solutions. -/
theorem C7_reach_reads_objective_values (σ : Type) (bk : Backend σ)
    (s : PPSolver σ) (i : ℕ) (xmin xmax : ℚ) (init : Bool) :
    ((reach_up_state s i xmin xmax).g 0 = -(2 * (s.ss (i + 1) - s.ss i)) ∧
     (reach_up_state s i xmin xmax).g 1 = -1 ∧
     reach_down_g s i xmin xmax 0 = 2 * (s.ss (i + 1) - s.ss i) ∧
     reach_down_g s i xmin xmax 1 = 1) ∧
    (∀ stU rU stD rD,
      bk.run (reach_up_state s i xmin xmax).up init
        (reach_up_state s i xmin xmax).H (reach_up_state s i xmin xmax).g
        ((reach_up_state s i xmin xmax).A i) ((reach_up_state s i xmin xmax).l i)
        ((reach_up_state s i xmin xmax).h i) ((reach_up_state s i xmin xmax).lA i)
        ((reach_up_state s i xmin xmax).hA i) nWSR_cnst = (stU, rU) →
      bk.run (reach_up_state s i xmin xmax).down init
        (reach_up_state s i xmin xmax).H (reach_down_g s i xmin xmax)
        ((reach_up_state s i xmin xmax).A i) ((reach_up_state s i xmin xmax).l i)
        ((reach_up_state s i xmin xmax).h i) ((reach_up_state s i xmin xmax).lA i)
        ((reach_up_state s i xmin xmax).hA i) nWSR_cnst = (stD, rD) →
      (rU.status = 0 → rD.status = 0 →
        (reach bk s i xmin xmax init).2 = some (rD.objVal, -rU.objVal)) ∧
      (¬(rU.status = 0 ∧ rD.status = 0) →
        (reach bk s i xmin xmax init).2 = none)) ∧
    (∀ stU rU stD rD,
      bk.run (one_step_up_state s i xmin xmax).up init
        (one_step_up_state s i xmin xmax).H (one_step_up_state s i xmin xmax).g
        ((one_step_up_state s i xmin xmax).A i) ((one_step_up_state s i xmin xmax).l i)
        ((one_step_up_state s i xmin xmax).h i) ((one_step_up_state s i xmin xmax).lA i)
        ((one_step_up_state s i xmin xmax).hA i) nWSR_cnst = (stU, rU) →
      bk.run (one_step_up_state s i xmin xmax).down init
        (one_step_up_state s i xmin xmax).H (one_step_down_g s i xmin xmax)
        ((one_step_up_state s i xmin xmax).A i) ((one_step_up_state s i xmin xmax).l i)
        ((one_step_up_state s i xmin xmax).h i) ((one_step_up_state s i xmin xmax).lA i)
        ((one_step_up_state s i xmin xmax).hA i) nWSR_cnst = (stD, rD) →
      (rU.status = 0 → rD.status = 0 →
        (one_step bk s i xmin xmax init).2 = some (rD.primal 1, rU.primal 1))) ∧
    (∀ stU rU stD rD,
      bk.run (proj_up_state s i xmin xmax).up init
        (proj_up_state s i xmin xmax).H (proj_up_state s i xmin xmax).g
        ((proj_up_state s i xmin xmax).A i) ((proj_up_state s i xmin xmax).l i)
        ((proj_up_state s i xmin xmax).h i) ((proj_up_state s i xmin xmax).lA i)
        ((proj_up_state s i xmin xmax).hA i) nWSR_cnst = (stU, rU) →
      bk.run (proj_up_state s i xmin xmax).down init
        (proj_up_state s i xmin xmax).H (proj_down_g s i xmin xmax)
        ((proj_up_state s i xmin xmax).A i) ((proj_up_state s i xmin xmax).l i)
        ((proj_up_state s i xmin xmax).h i) ((proj_up_state s i xmin xmax).lA i)
        ((proj_up_state s i xmin xmax).hA i) nWSR_cnst = (stD, rD) →
      (rU.status = 0 → rD.status = 0 →
        (proj_x_admissible bk s i xmin xmax init).2 =
          Except.map some (proj_extract (rD.primal 1) (rU.primal 1)))) := by
  refine ⟨⟨?_, ?_, ?_, ?_⟩, ?_, ?_, ?_⟩
  · simp [reach_up_state, set_row0, upd1]
  · simp [reach_up_state, set_row0, upd1]
  · simp [reach_down_g, reach_up_state, set_row0, upd1]
  · simp [reach_down_g, reach_up_state, set_row0, upd1]
  · intro stU rU stD rD hU hD
    constructor
    · intro h1 h2
      simp only [reach]
      rw [hU, hD, if_pos ⟨h1, h2⟩]
    · intro hn
      simp only [reach]
      rw [hU, hD, if_neg hn]
  · intro stU rU stD rD hU hD h1 h2
    simp only [one_step]
    rw [hU, hD, if_pos ⟨h1, h2⟩]
  · intro stU rU stD rD hU hD h1 h2
    simp only [proj_x_admissible]
    rw [hU, hD, if_pos ⟨h1, h2⟩]

/-- Witness for C7: with `bkW` (objective value 5, primal `x`
component 2) the `reach` result is the pair of objective values
`(5, -5)` while `one_step` returns the primal pair `(2, 2)`. -/
theorem C7_witness :
    (reach_up_state sW 0 0 1).g 0 = -(2 * (sW.ss 1 - sW.ss 0)) ∧
    (reach bkW sW 0 0 1 true).2 = some (5, -5) ∧
    (one_step bkW sW 0 0 1 true).2 = some (2, 2) := by
  refine ⟨(C7_reach_reads_objective_values ℕ bkW sW 0 0 1 true).1.1, ?_, ?_⟩
  · exact ((C7_reach_reads_objective_values ℕ bkW sW 0 0 1 true).2.1
      ((reach_up_state sW 0 0 1).up + 1) ⟨0, fun j => if j = 1 then 2 else 1, 5⟩
      ((reach_up_state sW 0 0 1).down + 1) ⟨0, fun j => if j = 1 then 2 else 1, 5⟩
      rfl rfl).1 rfl rfl
  · exact (C7_reach_reads_objective_values ℕ bkW sW 0 0 1 true).2.2.1
      ((one_step_up_state sW 0 0 1).up + 1) ⟨0, fun j => if j = 1 then 2 else 1, 5⟩
      ((one_step_up_state sW 0 0 1).down + 1) ⟨0, fun j => if j = 1 then 2 else 1, 5⟩
      rfl rfl rfl rfl

lemma reset_A_frame (s : PPSolver σ) (a r c : ℕ) (h : s.nop ≤ r) :
    (reset_operational_rows s).A a r c = s.A a r c := by
  simp only [reset_operational_rows]
  rw [if_neg (Nat.not_lt.mpr h)]

lemma reset_lA_frame (s : PPSolver σ) (a r : ℕ) (h : s.nop ≤ r) :
    (reset_operational_rows s).lA a r = s.lA a r := by
  simp only [reset_operational_rows]
  rw [if_neg (Nat.not_lt.mpr h)]

lemma reset_hA_frame (s : PPSolver σ) (a r : ℕ) (h : s.nop ≤ r) :
    (reset_operational_rows s).hA a r = s.hA a r := by
  simp only [reset_operational_rows]
  rw [if_neg (Nat.not_lt.mpr h)]

lemma reach_down_g_frame (s : PPSolver σ) (i : ℕ) (xmin xmax : ℚ) (j : ℕ)
    (hj : 2 ≤ j) : reach_down_g s i xmin xmax j = s.g j := by
  simp only [reach_down_g, reach_up_state]
  rw [upd1_frame _ _ _ _ (by omega), upd1_frame _ _ _ _ (by omega),
    upd1_frame _ _ _ _ (by omega), upd1_frame _ _ _ _ (by omega)]
  rfl

lemma proj_down_g_frame (s : PPSolver σ) (i : ℕ) (xmin xmax : ℚ) (j : ℕ)
    (hj : 2 ≤ j) : proj_down_g s i xmin xmax j = s.g j := by
  simp only [proj_down_g, proj_up_state]
  rw [upd1_frame _ _ _ _ (by omega), upd1_frame _ _ _ _ (by omega),
    upd1_frame _ _ _ _ (by omega), upd1_frame _ _ _ _ (by omega)]
  rfl

lemma least_greedy_A_frame (bk : Backend σ) (s : PPSolver σ) (i : ℕ)
    (x xmin xmax : ℚ) (init : Bool) (reg : ℚ) (a r c : ℕ) (hr : 3 ≤ r)
    (hnop : s.nop = 3) :
    (least_greedy_step bk s i x xmin xmax init reg).1.A a r c = s.A a r c := by
  simp only [least_greedy_step]
  by_cases hnv : (reset_operational_rows s).nv + 2 ≠ 2
  · rw [if_pos hnv]
    exact reset_A_frame s a r c (by omega)
  · rw [if_neg hnv]
    exact (upd3_frame _ i 1 1 1 a r c (fun hh => by omega)).trans
      ((upd3_frame _ i 1 0 _ a r c (fun hh => by omega)).trans
        ((upd3_frame _ i 0 1 1 a r c (fun hh => by omega)).trans
          ((upd3_frame _ i 0 0 0 a r c (fun hh => by omega)).trans
            (reset_A_frame s a r c (by omega)))))

lemma least_greedy_lA_frame (bk : Backend σ) (s : PPSolver σ) (i : ℕ)
    (x xmin xmax : ℚ) (init : Bool) (reg : ℚ) (a r : ℕ) (hr : 3 ≤ r)
    (hnop : s.nop = 3) :
    (least_greedy_step bk s i x xmin xmax init reg).1.lA a r = s.lA a r := by
  simp only [least_greedy_step]
  by_cases hnv : (reset_operational_rows s).nv + 2 ≠ 2
  · rw [if_pos hnv]
    exact reset_lA_frame s a r (by omega)
  · rw [if_neg hnv]
    exact (upd2_frame _ i 1 xmin a r (fun hh => by omega)).trans
      ((upd2_frame _ i 0 x a r (fun hh => by omega)).trans
        (reset_lA_frame s a r (by omega)))

lemma least_greedy_hA_frame (bk : Backend σ) (s : PPSolver σ) (i : ℕ)
    (x xmin xmax : ℚ) (init : Bool) (reg : ℚ) (a r : ℕ) (hr : 3 ≤ r)
    (hnop : s.nop = 3) :
    (least_greedy_step bk s i x xmin xmax init reg).1.hA a r = s.hA a r := by
  simp only [least_greedy_step]
  by_cases hnv : (reset_operational_rows s).nv + 2 ≠ 2
  · rw [if_pos hnv]
    exact reset_hA_frame s a r (by omega)
  · rw [if_neg hnv]
    exact (upd2_frame _ i 1 xmax a r (fun hh => by omega)).trans
      ((upd2_frame _ i 0 x a r (fun hh => by omega)).trans
        (reset_hA_frame s a r (by omega)))

lemma least_greedy_l (bk : Backend σ) (s : PPSolver σ) (i : ℕ)
    (x xmin xmax : ℚ) (init : Bool) (reg : ℚ) :
    (least_greedy_step bk s i x xmin xmax init reg).1.l = s.l := by
  simp only [least_greedy_step]
  by_cases hnv : (reset_operational_rows s).nv + 2 ≠ 2
  · rw [if_pos hnv]
    rfl
  · rw [if_neg hnv]
    rfl

lemma least_greedy_h (bk : Backend σ) (s : PPSolver σ) (i : ℕ)
    (x xmin xmax : ℚ) (init : Bool) (reg : ℚ) :
    (least_greedy_step bk s i x xmin xmax init reg).1.h = s.h := by
  simp only [least_greedy_step]
  by_cases hnv : (reset_operational_rows s).nv + 2 ≠ 2
  · rw [if_pos hnv]
    rfl
  · rw [if_neg hnv]
    rfl

/-- C9: `one_step`, `greedy_step` and `least_greedy_step` reset the
operational rows at entry (each is invariant under a preceding
reset); `reach` and `proj_x_admissible` perform no reset and only
overwrite operational row 0 (columns 0 and 1 of `A`, the row-0
entries of `lA`/`hA`) and `g[0]`, `g[1]`, leaving rows 1 and 2, the
Hessian `H` and the remaining `g` entries exactly as found; and no
primitive ever modifies the permanent rows (`r >= nop = 3`) of `A`,
`lA`, `hA` or the box bounds `l`, `h`. -/
theorem C9_operational_row_discipline (σ : Type) (bk : Backend σ)
    (s : PPSolver σ) (i : ℕ) (x xmin xmax reg : ℚ) (init : Bool)
    (hnop : s.nop = 3) :
    one_step bk s i xmin xmax init =
      one_step bk (reset_operational_rows s) i xmin xmax init ∧
    greedy_step bk s i x xmin xmax init reg =
      greedy_step bk (reset_operational_rows s) i x xmin xmax init reg ∧
    least_greedy_step bk s i x xmin xmax init reg =
      least_greedy_step bk (reset_operational_rows s) i x xmin xmax init reg ∧
    (∀ a r c, ¬(a = i ∧ r = 0 ∧ (c = 0 ∨ c = 1)) →
      (reach bk s i xmin xmax init).1.A a r c = s.A a r c ∧
      (proj_x_admissible bk s i xmin xmax init).1.A a r c = s.A a r c) ∧
    (∀ a r, ¬(a = i ∧ r = 0) →
      (reach bk s i xmin xmax init).1.lA a r = s.lA a r ∧
      (reach bk s i xmin xmax init).1.hA a r = s.hA a r ∧
      (proj_x_admissible bk s i xmin xmax init).1.lA a r = s.lA a r ∧
      (proj_x_admissible bk s i xmin xmax init).1.hA a r = s.hA a r) ∧
    ((reach bk s i xmin xmax init).1.H = s.H ∧
     (proj_x_admissible bk s i xmin xmax init).1.H = s.H) ∧
    (∀ j, 2 ≤ j →
      (reach bk s i xmin xmax init).1.g j = s.g j ∧
      (proj_x_admissible bk s i xmin xmax init).1.g j = s.g j) ∧
    (∀ a r c, 3 ≤ r →
      (one_step bk s i xmin xmax init).1.A a r c = s.A a r c ∧
      (reach bk s i xmin xmax init).1.A a r c = s.A a r c ∧
      (proj_x_admissible bk s i xmin xmax init).1.A a r c = s.A a r c ∧
      (greedy_step bk s i x xmin xmax init reg).1.A a r c = s.A a r c ∧
      (least_greedy_step bk s i x xmin xmax init reg).1.A a r c = s.A a r c) ∧
    (∀ a r, 3 ≤ r →
      (one_step bk s i xmin xmax init).1.lA a r = s.lA a r ∧
      (one_step bk s i xmin xmax init).1.hA a r = s.hA a r ∧
      (reach bk s i xmin xmax init).1.lA a r = s.lA a r ∧
      (reach bk s i xmin xmax init).1.hA a r = s.hA a r ∧
      (proj_x_admissible bk s i xmin xmax init).1.lA a r = s.lA a r ∧
      (proj_x_admissible bk s i xmin xmax init).1.hA a r = s.hA a r ∧
      (greedy_step bk s i x xmin xmax init reg).1.lA a r = s.lA a r ∧
      (greedy_step bk s i x xmin xmax init reg).1.hA a r = s.hA a r ∧
      (least_greedy_step bk s i x xmin xmax init reg).1.lA a r = s.lA a r ∧
      (least_greedy_step bk s i x xmin xmax init reg).1.hA a r = s.hA a r) ∧
    ((one_step bk s i xmin xmax init).1.l = s.l ∧
     (one_step bk s i xmin xmax init).1.h = s.h ∧
     (reach bk s i xmin xmax init).1.l = s.l ∧
     (reach bk s i xmin xmax init).1.h = s.h ∧
     (proj_x_admissible bk s i xmin xmax init).1.l = s.l ∧
     (proj_x_admissible bk s i xmin xmax init).1.h = s.h ∧
     (greedy_step bk s i x xmin xmax init reg).1.l = s.l ∧
     (greedy_step bk s i x xmin xmax init reg).1.h = s.h ∧
     (least_greedy_step bk s i x xmin xmax init reg).1.l = s.l ∧
     (least_greedy_step bk s i x xmin xmax init reg).1.h = s.h) := by
  have hup : one_step_up_state (reset_operational_rows s) i xmin xmax =
      one_step_up_state s i xmin xmax := by
    simp only [one_step_up_state]
    rw [reset_idem]
  have hdg : one_step_down_g (reset_operational_rows s) i xmin xmax =
      one_step_down_g s i xmin xmax := by
    simp only [one_step_down_g]
    rw [hup]
  refine ⟨?_, ?_, ?_, ?_, ?_, ?_, ?_, ?_, ?_, ?_⟩
  · simp only [one_step, hup, hdg]
  · simp only [greedy_step, reset_idem]
  · simp only [least_greedy_step, reset_idem]
  · intro a r c hc
    constructor
    · exact (upd3_frame _ i 0 0 0 a r c
        (fun hh => hc ⟨hh.1, hh.2.1, Or.inl hh.2.2⟩)).trans
        (upd3_frame s.A i 0 1 1 a r c
          (fun hh => hc ⟨hh.1, hh.2.1, Or.inr hh.2.2⟩))
    · exact (upd3_frame _ i 0 0 0 a r c
        (fun hh => hc ⟨hh.1, hh.2.1, Or.inl hh.2.2⟩)).trans
        (upd3_frame s.A i 0 1 1 a r c
          (fun hh => hc ⟨hh.1, hh.2.1, Or.inr hh.2.2⟩))
  · intro a r hc
    exact ⟨upd2_frame s.lA i 0 xmin a r hc, upd2_frame s.hA i 0 xmax a r hc,
      upd2_frame s.lA i 0 xmin a r hc, upd2_frame s.hA i 0 xmax a r hc⟩
  · exact ⟨rfl, rfl⟩
  · intro j hj
    exact ⟨reach_down_g_frame s i xmin xmax j hj,
      proj_down_g_frame s i xmin xmax j hj⟩
  · intro a r c hr
    refine ⟨?_, ?_, ?_, ?_, ?_⟩
    · exact (upd3_frame _ i 0 0 _ a r c (fun hh => by omega)).trans
        ((upd3_frame _ i 0 1 1 a r c (fun hh => by omega)).trans
          (reset_A_frame s a r c (by omega)))
    · exact (upd3_frame _ i 0 0 0 a r c (fun hh => by omega)).trans
        (upd3_frame s.A i 0 1 1 a r c (fun hh => by omega))
    · exact (upd3_frame _ i 0 0 0 a r c (fun hh => by omega)).trans
        (upd3_frame s.A i 0 1 1 a r c (fun hh => by omega))
    · exact (upd3_frame _ i 1 0 _ a r c (fun hh => by omega)).trans
        ((upd3_frame _ i 1 1 1 a r c (fun hh => by omega)).trans
          ((upd3_frame _ i 0 0 0 a r c (fun hh => by omega)).trans
            ((upd3_frame _ i 0 1 1 a r c (fun hh => by omega)).trans
              (reset_A_frame s a r c (by omega)))))
    · exact least_greedy_A_frame bk s i x xmin xmax init reg a r c hr hnop
  · intro a r hr
    refine ⟨?_, ?_, ?_, ?_, ?_, ?_, ?_, ?_, ?_, ?_⟩
    · exact (upd2_frame _ i 0 xmin a r (fun hh => by omega)).trans
        (reset_lA_frame s a r (by omega))
    · exact (upd2_frame _ i 0 xmax a r (fun hh => by omega)).trans
        (reset_hA_frame s a r (by omega))
    · exact upd2_frame s.lA i 0 xmin a r (fun hh => by omega)
    · exact upd2_frame s.hA i 0 xmax a r (fun hh => by omega)
    · exact upd2_frame s.lA i 0 xmin a r (fun hh => by omega)
    · exact upd2_frame s.hA i 0 xmax a r (fun hh => by omega)
    · exact (upd2_frame _ i 1 xmin a r (fun hh => by omega)).trans
        ((upd2_frame _ i 0 x a r (fun hh => by omega)).trans
          (reset_lA_frame s a r (by omega)))
    · exact (upd2_frame _ i 1 xmax a r (fun hh => by omega)).trans
        ((upd2_frame _ i 0 x a r (fun hh => by omega)).trans
          (reset_hA_frame s a r (by omega)))
    · exact least_greedy_lA_frame bk s i x xmin xmax init reg a r hr hnop
    · exact least_greedy_hA_frame bk s i x xmin xmax init reg a r hr hnop
  · exact ⟨rfl, rfl, rfl, rfl, rfl, rfl, rfl, rfl,
      least_greedy_l bk s i x xmin xmax init reg,
      least_greedy_h bk s i x xmin xmax init reg⟩

/-- Witness for C9: the reset-at-entry law for `one_step` at a
concrete state. -/
theorem C9_witness :
    sW.nop = 3 ∧
    one_step bkW sW 0 0 1 true =
      one_step bkW (reset_operational_rows sW) 0 0 1 true :=
  ⟨rfl, (C9_operational_row_discipline ℕ bkW sW 0 0 0 1 0 true rfl).1⟩

lemma fillCanon_pres (cs : List PathConstraint) :
    ∀ (s : PPSolver σ) (row : ℕ),
      (fillCanon cs s row).K = s.K ∧ (fillCanon cs s row).L = s.L ∧
      (fillCanon cs s row).l = s.l ∧ (fillCanon cs s row).h = s.h := by
  induction cs with
  | nil => exact fun s row => ⟨rfl, rfl, rfl, rfl⟩
  | cons c rest ih =>
    intro s row
    simp only [fillCanon]
    split_ifs with hnm
    · exact ih s row
    · exact ih _ _

lemma fillEq_pres (cs : List PathConstraint) :
    ∀ (s : PPSolver σ) (row col : ℕ),
      (fillEq cs s row col).K = s.K ∧ (fillEq cs s row col).L = s.L ∧
      (fillEq cs s row col).l = s.l ∧ (fillEq cs s row col).h = s.h := by
  induction cs with
  | nil => exact fun s row col => ⟨rfl, rfl, rfl, rfl⟩
  | cons c rest ih =>
    intro s row col
    simp only [fillEq]
    split_ifs with hneq
    · exact ih s row col
    · exact ih _ _ _

lemma fillIneq_pres (cs : List PathConstraint) :
    ∀ (s : PPSolver σ) (row col : ℕ),
      (fillIneq cs s row col).K = s.K ∧ (fillIneq cs s row col).L = s.L ∧
      (fillIneq cs s row col).l = s.l ∧ (fillIneq cs s row col).h = s.h := by
  induction cs with
  | nil => exact fun s row col => ⟨rfl, rfl, rfl, rfl⟩
  | cons c rest ih =>
    intro s row col
    simp only [fillIneq]
    split_ifs with hniq
    · exact ih s row col
    · exact ih _ _ _

lemma fillBounds_pres (cs : List PathConstraint) :
    ∀ (s : PPSolver σ) (row : ℕ),
      (fillBounds cs s row).K = s.K ∧ (fillBounds cs s row).L = s.L := by
  induction cs with
  | nil => exact fun s row => ⟨rfl, rfl⟩
  | cons c rest ih =>
    intro s row
    simp only [fillBounds]
    split_ifs with hnv
    · exact ih s row
    · exact ih _ _

lemma fillBounds_lh_frame (cs : List PathConstraint) :
    ∀ (s : PPSolver σ) (row st col : ℕ), col < row →
      (fillBounds cs s row).l st col = s.l st col ∧
      (fillBounds cs s row).h st col = s.h st col := by
  induction cs with
  | nil => exact fun s row st col hc => ⟨rfl, rfl⟩
  | cons c rest ih =>
    intro s row st col hc
    simp only [fillBounds]
    split_ifs with hnv
    · exact ih s row st col hc
    · obtain ⟨h1, h2⟩ := ih _ (row + c.nv) st col (by omega)
      constructor
      · rw [h1]
        show (if row ≤ col ∧ col < row + c.nv then c.l st (col - row)
          else s.l st col) = s.l st col
        rw [if_neg (by omega)]
      · rw [h2]
        show (if row ≤ col ∧ col < row + c.nv then c.h st (col - row)
          else s.h st col) = s.h st col
        rw [if_neg (by omega)]

lemma fill_matrices_char (cs : List PathConstraint) (s : PPSolver σ) :
    (fill_matrices cs s).K = s.K ∧ (fill_matrices cs s).L = s.L ∧
    (∀ st, (fill_matrices cs s).l st 1 = 0) ∧
    (∀ st, (fill_matrices cs s).h st 1 = MAXX) := by
  simp only [fill_matrices]
  refine ⟨?_, ?_, ?_, ?_⟩
  · exact ((fillBounds_pres cs _ 2).1).trans
      (((fillIneq_pres cs _ _ _).1).trans
        (((fillEq_pres cs _ _ _).1).trans ((fillCanon_pres cs _ _).1)))
  · exact ((fillBounds_pres cs _ 2).2).trans
      (((fillIneq_pres cs _ _ _).2.1).trans
        (((fillEq_pres cs _ _ _).2.1).trans ((fillCanon_pres cs _ _).2.1)))
  · intro st
    rw [(fillBounds_lh_frame cs _ 2 st 1 (by omega)).1]
    simp
  · intro st
    rw [(fillBounds_lh_frame cs _ 2 st 1 (by omega)).2]
    simp

lemma mk_ok_char (cs : List PathConstraint) (u0 d0 : σ) (s : PPSolver σ)
    (h : mkPPSolver cs u0 d0 = .ok s) :
    s.K = (fun _ => (-1, -1)) ∧ s.L = (fun _ => (-1, -1)) ∧
    (∀ st, s.l st 1 = 0) ∧ (∀ st, s.h st 1 = MAXX) := by
  cases cs with
  | nil => simp [mkPPSolver] at h
  | cons c0 rest =>
    simp only [mkPPSolver] at h
    split_ifs at h with hall
    injection h with h'
    subst h'
    obtain ⟨hK, hL, hl, hh⟩ := fill_matrices_char (c0 :: rest) _
    exact ⟨hK, hL, hl, hh⟩

lemma map_some_ok (a : Except Err (ℚ × ℚ)) {p : ℚ × ℚ}
    (h : Except.map some a = .ok (some p)) : a = .ok p := by
  cases a with
  | ok q =>
    have h2 : (Except.ok (some q) : Except Err (Option (ℚ × ℚ))) = .ok (some p) := h
    injection h2 with h3
    injection h3 with h4
    rw [h4]
  | error e =>
    have h2 : (Except.error e : Except Err (Option (ℚ × ℚ))) = .ok (some p) := h
    exact Except.noConfusion h2

lemma if_payload_some_cond {c : Prop} [Decidable c]
    (a : Except Err (Option (ℚ × ℚ))) {v : ℚ × ℚ}
    (h : (if c then a else Except.ok none) = .ok (some v)) :
    c ∧ a = .ok (some v) := by
  split_ifs at h with hc
  · exact ⟨hc, h⟩
  · simp at h

lemma proj_extract_fst (a b : ℚ) (p : ℚ × ℚ) (h : proj_extract a b = .ok p) :
    p.1 = a := by
  simp only [proj_extract] at h
  split_ifs at h with h1 h2
  · injection h with h3
    rw [← h3]
  · injection h with h3
    rw [← h3]

lemma proj_seed_lower (bk : Backend σ) (s : PPSolver σ) (i : ℕ)
    (xmin xmax : ℚ) (init : Bool) (seed : ℚ × ℚ) (hbk : FeasibleAtX bk)
    (h : (proj_x_admissible bk s i xmin xmax init).2 = .ok (some seed))
    (hlh : s.l i 1 ≤ s.h i 1) :
    s.l i 1 ≤ seed.1 := by
  simp only [proj_x_admissible] at h
  obtain ⟨hc, heq⟩ := if_payload_some_cond _ h
  have hpe := map_some_ok _ heq
  have hfst := proj_extract_fst _ _ _ hpe
  have hb := hbk _ _ _ _ _ _ _ _ _ _ hc.2 hlh
  rw [hfst]
  exact hb.1

lemma cs_from_fresh (bk : Backend σ) (eps : ℚ) (base : PPSolver σ)
    (hK0 : base.K = fun _ => ((-1 : ℚ), (-1 : ℚ)))
    (hl0 : ∀ st, base.l st 1 = 0) (hh0 : ∀ st, base.h st 1 = MAXX)
    (hbk : FeasibleAtX bk) :
    (∀ (s' : PPSolver σ) (b : Bool),
      solve_controllable_sets bk base eps = .ok (s', b) →
      ∀ i, (s'.K i = (-1, -1) ∧ ¬(-TINY < (s'.K i).1)) ∨
        (0 ≤ (s'.K i).1 ∧ -TINY < (s'.K i).1)) ∧
    (∀ s' : PPSolver σ,
      solve_controllable_sets bk base eps = .ok (s', true) →
      ∀ i, i ≤ s'.N → 0 ≤ (s'.K i).1) := by
  have hlh : ∀ st, (reset_operational_rows base).l st 1 ≤
      (reset_operational_rows base).h st 1 := by
    intro st
    have e1 : (reset_operational_rows base).l st 1 = 0 := hl0 st
    have e2 : (reset_operational_rows base).h st 1 = MAXX := hh0 st
    rw [e1, e2]
    norm_num [MAXX]
  constructor
  · intro s' b hcs'
    simp only [solve_controllable_sets] at hcs'
    rcases hp : (proj_x_admissible bk (reset_operational_rows base)
        (reset_operational_rows base).N (reset_operational_rows base).IN.1
        (reset_operational_rows base).IN.2 true).2 with e | o
    · rw [hp] at hcs'
      exact absurd hcs' (by simp)
    · rw [hp] at hcs'
      cases o with
      | none =>
        simp only [Except.ok.injEq, Prod.mk.injEq] at hcs'
        intro i
        left
        have hKi : s'.K i = (-1, -1) := by
          rw [← hcs'.1]
          exact congrFun hK0 i
        refine ⟨hKi, ?_⟩
        rw [hKi]
        norm_num [TINY]
      | some seed =>
        have hloop : csLoop bk eps
            (proj_x_admissible bk (reset_operational_rows base)
              (reset_operational_rows base).N (reset_operational_rows base).IN.1
              (reset_operational_rows base).IN.2 true).1.N true
            (store_K (proj_x_admissible bk (reset_operational_rows base)
              (reset_operational_rows base).N (reset_operational_rows base).IN.1
              (reset_operational_rows base).IN.2 true).1
              (proj_x_admissible bk (reset_operational_rows base)
                (reset_operational_rows base).N (reset_operational_rows base).IN.1
                (reset_operational_rows base).IN.2 true).1.N seed)
            = (s', b) := by
          injection hcs'
        have hlow : 0 ≤ seed.1 := by
          have hs := proj_seed_lower bk (reset_operational_rows base) _ _ _ true
            seed hbk hp (hlh _)
          have e1 : (reset_operational_rows base).l
              (reset_operational_rows base).N 1 = 0 := hl0 _
          rwa [e1] at hs
        intro i
        have hd := csLoop_K_dichot bk eps
          (proj_x_admissible bk (reset_operational_rows base)
            (reset_operational_rows base).N (reset_operational_rows base).IN.1
            (reset_operational_rows base).IN.2 true).1.N true
          (store_K (proj_x_admissible bk (reset_operational_rows base)
            (reset_operational_rows base).N (reset_operational_rows base).IN.1
            (reset_operational_rows base).IN.2 true).1
            (proj_x_admissible bk (reset_operational_rows base)
              (reset_operational_rows base).N (reset_operational_rows base).IN.1
              (reset_operational_rows base).IN.2 true).1.N seed) i
        rw [congrArg Prod.fst hloop] at hd
        rcases hd with hsame | hge
        · have hupd : (store_K (proj_x_admissible bk (reset_operational_rows base)
              (reset_operational_rows base).N (reset_operational_rows base).IN.1
              (reset_operational_rows base).IN.2 true).1
              (proj_x_admissible bk (reset_operational_rows base)
                (reset_operational_rows base).N (reset_operational_rows base).IN.1
                (reset_operational_rows base).IN.2 true).1.N seed).K i
              = updK base.K (reset_operational_rows base).N seed i := rfl
          rw [hupd] at hsame
          by_cases hi : i = (reset_operational_rows base).N
          · subst hi
            rw [updK_self] at hsame
            right
            rw [hsame]
            exact ⟨hlow, lt_of_lt_of_le (by norm_num [TINY]) hlow⟩
          · rw [updK_frame _ _ _ _ hi, congrFun hK0 i] at hsame
            left
            refine ⟨hsame, ?_⟩
            rw [hsame]
            norm_num [TINY]
        · right
          exact ⟨hge, lt_of_lt_of_le (by norm_num [TINY]) hge⟩
  · intro s' hcs'
    simp only [solve_controllable_sets] at hcs'
    rcases hp : (proj_x_admissible bk (reset_operational_rows base)
        (reset_operational_rows base).N (reset_operational_rows base).IN.1
        (reset_operational_rows base).IN.2 true).2 with e | o
    · rw [hp] at hcs'
      exact absurd hcs' (by simp)
    · rw [hp] at hcs'
      cases o with
      | none =>
        simp only [Except.ok.injEq, Prod.mk.injEq] at hcs'
        exact absurd hcs'.2 (by simp)
      | some seed =>
        have hloop : csLoop bk eps
            (proj_x_admissible bk (reset_operational_rows base)
              (reset_operational_rows base).N (reset_operational_rows base).IN.1
              (reset_operational_rows base).IN.2 true).1.N true
            (store_K (proj_x_admissible bk (reset_operational_rows base)
              (reset_operational_rows base).N (reset_operational_rows base).IN.1
              (reset_operational_rows base).IN.2 true).1
              (proj_x_admissible bk (reset_operational_rows base)
                (reset_operational_rows base).N (reset_operational_rows base).IN.1
                (reset_operational_rows base).IN.2 true).1.N seed)
            = (s', true) := by
          injection hcs'
        have hlow : 0 ≤ seed.1 := by
          have hs := proj_seed_lower bk (reset_operational_rows base) _ _ _ true
            seed hbk hp (hlh _)
          have e1 : (reset_operational_rows base).l
              (reset_operational_rows base).N 1 = 0 := hl0 _
          rwa [e1] at hs
        obtain ⟨hfr, hint⟩ := csLoop_char bk eps _ true _ _ hloop
        have hs1 : (csLoop bk eps
            (proj_x_admissible bk (reset_operational_rows base)
              (reset_operational_rows base).N (reset_operational_rows base).IN.1
              (reset_operational_rows base).IN.2 true).1.N true
            (store_K (proj_x_admissible bk (reset_operational_rows base)
              (reset_operational_rows base).N (reset_operational_rows base).IN.1
              (reset_operational_rows base).IN.2 true).1
              (proj_x_admissible bk (reset_operational_rows base)
                (reset_operational_rows base).N (reset_operational_rows base).IN.1
                (reset_operational_rows base).IN.2 true).1.N seed)).1 = s' :=
          congrArg Prod.fst hloop
        have hN : s'.N = (reset_operational_rows base).N := by
          rw [← hs1]
          exact (csLoop_pres bk eps _ true _).1
        intro i hi
        rcases Nat.lt_or_ge i (reset_operational_rows base).N with hlt | hgei
        · obtain ⟨s₀, s₁, bb, lo, hi', -, -, hKi⟩ := hint i hlt
          rw [hKi]
          exact le_max_right _ _
        · have hieq : i = (reset_operational_rows base).N := by omega
          rw [hieq]
          have h1 : s'.K (reset_operational_rows base).N =
              (store_K (proj_x_admissible bk (reset_operational_rows base)
                (reset_operational_rows base).N (reset_operational_rows base).IN.1
                (reset_operational_rows base).IN.2 true).1
                (proj_x_admissible bk (reset_operational_rows base)
                  (reset_operational_rows base).N (reset_operational_rows base).IN.1
                  (reset_operational_rows base).IN.2 true).1.N seed).K
                (reset_operational_rows base).N :=
            hfr _ (Nat.le_refl _)
          have hupd : (store_K (proj_x_admissible bk (reset_operational_rows base)
              (reset_operational_rows base).N (reset_operational_rows base).IN.1
              (reset_operational_rows base).IN.2 true).1
              (proj_x_admissible bk (reset_operational_rows base)
                (reset_operational_rows base).N (reset_operational_rows base).IN.1
                (reset_operational_rows base).IN.2 true).1.N seed).K
              (reset_operational_rows base).N
              = seed := updK_self _ _ _
          rw [h1, hupd]
          exact hlow

/-- C10: the public `K` and `L` properties expose exactly the rows whose
lower endpoint exceeds `-TINY`.  Because the constructor initialises both
arrays to `-1` everywhere, both properties are empty before any sweep has
run.  After `solve_controllable_sets` returns `true` (with a backend whose
reported optima respect the posed bound on the `x` variable), every one of
the `N + 1` stored rows has a non-negative lower endpoint, so the `K`
property exposes all of them; and after any run of the sweep each row is
either untouched — still `(-1, -1)` and hidden by the filter — or has a
non-negative lower endpoint and is retained. -/
theorem C10_K_property_visibility (σ : Type) (cs : List PathConstraint)
    (u0 d0 : σ) (bk : Backend σ) (eps : ℚ)
    (hok : exOk (mkPPSolver cs u0 d0) = true) (hbk : FeasibleAtX bk) :
    Kprop (newSolver cs u0 d0) = [] ∧ Lprop (newSolver cs u0 d0) = [] ∧
    (∀ s' : PPSolver σ,
      solve_controllable_sets bk (newSolver cs u0 d0) eps = .ok (s', true) →
      (∀ i, i ≤ s'.N → 0 ≤ (s'.K i).1) ∧ (Kprop s').length = s'.N + 1) ∧
    (∀ (s' : PPSolver σ) (b : Bool),
      solve_controllable_sets bk (newSolver cs u0 d0) eps = .ok (s', b) →
      ∀ i, (s'.K i = (-1, -1) ∧ ¬(-TINY < (s'.K i).1)) ∨
        (0 ≤ (s'.K i).1 ∧ -TINY < (s'.K i).1)) := by
  have hmk : mkPPSolver cs u0 d0 = .ok (newSolver cs u0 d0) := by
    unfold newSolver
    rcases hm : mkPPSolver cs u0 d0 with e | s
    · rw [hm] at hok
      simp [exOk] at hok
    · rfl
  obtain ⟨hK0, hL0, hl0, hh0⟩ := mk_ok_char cs u0 d0 _ hmk
  obtain ⟨hdich, hge⟩ := cs_from_fresh bk eps (newSolver cs u0 d0) hK0 hl0 hh0 hbk
  refine ⟨?_, ?_, ?_, hdich⟩
  · have hfil : List.filter
        (fun i => decide (-TINY < ((newSolver cs u0 d0).K i).1))
        (List.range ((newSolver cs u0 d0).N + 1)) = [] := by
      apply List.filter_eq_nil_iff.mpr
      intro a _
      simp only [hK0]
      norm_num [TINY]
    unfold Kprop
    rw [hfil]
    rfl
  · have hfil : List.filter
        (fun i => decide (-TINY < ((newSolver cs u0 d0).L i).1))
        (List.range ((newSolver cs u0 d0).N + 1)) = [] := by
      apply List.filter_eq_nil_iff.mpr
      intro a _
      simp only [hL0]
      norm_num [TINY]
    unfold Lprop
    rw [hfil]
    rfl
  · intro s' hs'
    refine ⟨hge s' hs', ?_⟩
    have hfil : List.filter (fun i => decide (-TINY < (s'.K i).1))
        (List.range (s'.N + 1)) = List.range (s'.N + 1) := by
      apply List.filter_eq_self.mpr
      intro a ha
      have halt : a ≤ s'.N := by
        have := List.mem_range.mp ha
        omega
      have h0 := hge s' hs' a halt
      simp only [decide_eq_true_eq]
      exact lt_of_lt_of_le (by norm_num [TINY]) h0
    unfold Kprop
    rw [hfil, List.length_map, List.length_range]

/-- Witness for C10: the one-segment trivial constraint system is
constructed successfully, the bound-respecting backend `bkF` satisfies
the feasibility contract, and the freshly constructed solver indeed
exposes an empty `K` property. -/
theorem C10_witness :
    exOk (mkPPSolver [pcW] (0 : ℕ) 0) = true ∧
    Kprop (newSolver [pcW] (0 : ℕ) 0) = [] := by
  have hok : exOk (mkPPSolver [pcW] (0 : ℕ) 0) = true := by
    norm_num [mkPPSolver, exOk, np_allclose, pcW, List.all_cons, List.all_nil,
      List.range_succ, List.all_append]
  have hbk : FeasibleAtX bkF := by
    intro st init Hm gv Am lv hv lAv hAv n hst hlh
    refine ⟨?_, ?_⟩ <;> simp [bkF, hlh]
  exact ⟨hok, (C10_K_property_visibility ℕ [pcW] 0 0 bkF 0 hok hbk).1⟩

end Toppra
